import Mathlib

/-!
Shallow embedding of the VoxDose numerical core (dosi.py,
analyze_wav_spl_f0.py, spl_fast.py, spl_fast_c_th.py, stima_livello.py).
Floating-point values are modelled as elements of a linear ordered field;
the transcendental primitives used by the code (square root, powers of ten,
base-ten logarithm, pi) and the FFT magnitude spectrum are abstracted into
an `Ops` record, so the arithmetic structure of the code is kept exactly
while the analytic facts needed by the theorems are taken as hypotheses.
-/

/-- Abstract numeric primitives used by the pipeline: these model
numpy sqrt (x ** 0.5), 10 ** x, np.log10, np.pi and np.abs(np.fft.fft(x)). -/
structure Ops (α : Type) where
  sqrt : α → α
  pow10 : α → α
  log10 : α → α
  pi : α
  fftAbs : List α → List α

/-- ASCII lower-casing of one character, modelling Python str.lower
on the ASCII range (the only range exercised by gender selectors). -/
def lowerChar (c : Char) : Char :=
  if c.toNat ≥ 65 ∧ c.toNat ≤ 90 then Char.ofNat (c.toNat + 32) else c

/-- Model of Python str.lower (ASCII). -/
def pyLower (s : String) : String := ⟨s.data.map lowerChar⟩

/-- The gender_mode argument of DOSI: either a Python int or a Python str. -/
inductive GenderArg where
  | gint : Int → GenderArg
  | gstr : String → GenderArg
deriving DecidableEq

/-- The resolved gender mode used by the dose formulas. -/
inductive GenderMode where
  | male | female | other
deriving DecidableEq

/-- Gender-argument resolution of dosi.py: an int argument is mapped to
male when it equals 1 and to female otherwise; the resulting string is
lower-cased and must be one of the three recognized names. -/
def resolveGender (g : GenderArg) : Except String GenderMode :=
  let s := match g with
    | .gint n => if n = 1 then "male" else "female"
    | .gstr s => s
  let s := pyLower s
  if s = "male" then .ok .male
  else if s = "female" then .ok .female
  else if s = "other" then .ok .other
  else .error "gender_mode must be male, female, or other."

/-- The 13-field dose vector returned by DOSI. -/
structure DoseVec (α : Type) where
  Dt : α
  VLI : α
  Dd : α
  De : α
  Dr : α
  DtPct : α
  DdNorm : α
  DeNorm : α
  DrNorm : α
  SPLmean : α
  F0mean : α
  SPLsd : α
  F0sd : α
deriving DecidableEq

/-- The dose vector as the 13-element array DOSI returns. -/
def DoseVec.toList {α : Type} (v : DoseVec α) : List α :=
  [v.Dt, v.VLI, v.Dd, v.De, v.Dr, v.DtPct, v.DdNorm, v.DeNorm, v.DrNorm,
   v.SPLmean, v.F0mean, v.SPLsd, v.F0sd]

/-- The all-zero dose vector. -/
def zeroDose {α : Type} [LinearOrderedField α] : DoseVec α :=
  ⟨0, 0, 0, 0, 0, 0, 0, 0, 0, 0, 0, 0, 0⟩

/-- The five per-frame biomechanical intermediates of dosi.py. -/
structure FrameQ (α : Type) where
  Pth : α
  Pl : α
  A : α
  T : α
  eta : α

/-- Per-frame intermediates under the male parameter set (dosi.py). -/
def frameMale {α : Type} [LinearOrderedField α] (ops : Ops α)
    (ts f0 spl : α) : FrameQ α :=
  let Pth : α := 0.14 + 0.06 * (f0 / 120) ^ 2
  let Pl : α := Pth + ops.pow10 ((spl - 72.48) / 27.3)
  let A : α := ts * 0.016 * ops.sqrt (max ((Pl - Pth) / max Pth 1e-12) 0)
  let T : α := 0.0158 / (1 + 2.15 * ops.sqrt (f0 / 120))
  let eta : α := 5.4 / max f0 1e-12
  ⟨Pth, Pl, A, T, eta⟩

/-- Per-frame intermediates under the female parameter set (dosi.py). -/
def frameFemale {α : Type} [LinearOrderedField α] (ops : Ops α)
    (ts f0 spl : α) : FrameQ α :=
  let Pth : α := 0.14 + 0.06 * (f0 / 190) ^ 2
  let Pl : α := Pth + ops.pow10 ((spl - 72.48) / 27.3)
  let A : α := ts * 0.010 * ops.sqrt (max ((Pl - Pth) / max Pth 1e-12) 0)
  let T : α := 0.01063 / (1 + 1.69 * ops.sqrt (f0 / 190))
  let eta : α := 1.4 / max f0 1e-12
  ⟨Pth, Pl, A, T, eta⟩

/-- Per-frame intermediates for the given mode; the other mode arithmetically
averages the five male and female intermediates (dosi.py). -/
def frameQ {α : Type} [LinearOrderedField α] (ops : Ops α) (m : GenderMode)
    (ts f0 spl : α) : FrameQ α :=
  match m with
  | .male => frameMale ops ts f0 spl
  | .female => frameFemale ops ts f0 spl
  | .other =>
    let qm := frameMale ops ts f0 spl
    let qf := frameFemale ops ts f0 spl
    ⟨0.5 * (qm.Pth + qf.Pth), 0.5 * (qm.Pl + qf.Pl), 0.5 * (qm.A + qf.A),
     0.5 * (qm.T + qf.T), 0.5 * (qm.eta + qf.eta)⟩

/-- One row of per-frame integrands (the partial arrays of dosi.py). -/
structure Partials (α : Type) where
  dt : α
  vli : α
  dd : α
  de : α
  dr : α
  spl : α
  f0 : α

/-- The zero row of integrands (indices with kv false contribute zero). -/
def zeroPartials {α : Type} [LinearOrderedField α] : Partials α :=
  ⟨0, 0, 0, 0, 0, 0, 0⟩

/-- Per-frame integrands of dosi.py at one index: computed only when the
frame is voiced-valid (F0 > 0 and SPL > 0), otherwise all zero. -/
def partialsAt {α : Type} [LinearOrderedField α] (ops : Ops α) (m : GenderMode)
    (ts spl f0 : α) : Partials α :=
  if 0 < f0 ∧ 0 < spl then
    let q := frameQ ops m ts f0 spl
    let omega : α := 2 * ops.pi * f0
    ⟨ts, f0 * ts, f0 * q.A,
     q.eta * (q.A / max q.T 1e-12) ^ 2 * omega ^ 2 * ts / 1000,
     ops.pow10 ((spl - 120) / 10) * 1000 * ts,
     spl * ts, f0 * ts⟩
  else zeroPartials

/-- Consecutive differences, modelling np.diff. -/
def npDiff {α : Type} [LinearOrderedField α] (t : List α) : List α :=
  List.zipWith (fun a b => b - a) t t.tail

/-- Median of a list, modelling np.median: middle element of the sorted
list for odd length, mean of the two middle elements for even length. -/
def npMedian {α : Type} [LinearOrderedField α] (l : List α) : α :=
  let s := l.mergeSort (· ≤ ·)
  if s.length % 2 = 1 then s.getD (s.length / 2) 0
  else (s.getD (s.length / 2 - 1) 0 + s.getD (s.length / 2) 0) / 2

/-- Nominal time-step inference of dosi.py: median of the strictly positive
consecutive time differences, falling back to 0.05 s. -/
def inferTimeStep {α : Type} [LinearOrderedField α] (t : List α) : α :=
  if 2 ≤ t.length then
    let dtPos := (npDiff t).filter (fun d => 0 < d)
    if dtPos = [] then 0.05 else npMedian dtPos
  else 0.05

/-- Population standard deviation with np.std semantics (of the raw list). -/
def npStd {α : Type} [LinearOrderedField α] (ops : Ops α) (l : List α) : α :=
  let mu := l.sum / (l.length : α)
  ops.sqrt ((l.map (fun x => (x - mu) ^ 2)).sum / (l.length : α))

/-- The time column of the data array (data[:, 0]). -/
def colT {α : Type} [LinearOrderedField α] (data : List (List α)) : List α :=
  data.map (fun r => r.getD 0 0)

/-- The seven per-frame partial arrays of dosi.py, one row per data row. -/
def dosiPartials {α : Type} [LinearOrderedField α] (ops : Ops α)
    (m : GenderMode) (data : List (List α)) : List (Partials α) :=
  data.map (fun r =>
    partialsAt ops m (inferTimeStep (colT data)) (r.getD 1 0) (r.getD 2 0))

/-- c lies between a and b, inclusive. -/
def between {α : Type} [LinearOrderedField α] (a b c : α) : Prop :=
  min a b ≤ c ∧ c ≤ max a b

/-- The dose computation of dosi.py after input validation. -/
def doseCore {α : Type} [LinearOrderedField α] (ops : Ops α) (m : GenderMode)
    (data : List (List α)) : DoseVec α :=
  let t := colT data
  let n := data.length
  let ps := dosiPartials ops m data
  let Dt := (ps.map Partials.dt).sum
  let VLI := (ps.map Partials.vli).sum / 1000
  let Dd := 4 * (ps.map Partials.dd).sum
  let De := 0.5 * (ps.map Partials.de).sum
  let Dr := 4 * ops.pi * (ps.map Partials.dr).sum
  let duration := if 2 ≤ n then max (t.getLastD 0 - t.headD 0) 1e-12
    else max Dt 1e-12
  let DtPct := 100 * (Dt / duration)
  if 0 < Dt then
    ⟨Dt, VLI, Dd, De, Dr, DtPct, Dd / Dt, De / Dt, Dr / Dt,
     (ps.map Partials.spl).sum / Dt, (ps.map Partials.f0).sum / Dt,
     npStd ops (ps.map Partials.spl), npStd ops (ps.map Partials.f0)⟩
  else
    ⟨Dt, VLI, Dd, De, Dr, DtPct, 0, 0, 0, 0, 0, 0, 0⟩

/-- DOSI of dosi.py: validates the column count and the gender selector,
then runs the dose computation. ncols is the width data.shape[1] of the
rectangular input array. -/
def DOSI {α : Type} [LinearOrderedField α] (ops : Ops α) (ncols : ℕ)
    (data : List (List α)) (g : GenderArg) : Except String (DoseVec α) :=
  if ncols < 3 then
    .error "DOSI expects data with shape (n,3): [time, SPL, F0]."
  else
    match resolveGender g with
    | .error e => .error e
    | .ok m => .ok (doseCore ops m data)

/-- The per-frame loop of dosi.py with the data array threaded through it:
each iteration reads its row and returns it unchanged, since every write of
the loop targets a freshly allocated array. -/
def dosiLoop {α : Type} [LinearOrderedField α] (ops : Ops α) (m : GenderMode)
    (ts : α) : List (List α) → List (Partials α) × List (List α)
  | [] => ([], [])
  | r :: rs =>
    let p := partialsAt ops m ts (r.getD 1 0) (r.getD 2 0)
    let rest := dosiLoop ops m ts rs
    (p :: rest.1, r :: rest.2)

/-- The totals section of dosi.py, computed from the time column, the row
count and the per-frame integrands. -/
def doseTotals {α : Type} [LinearOrderedField α] (ops : Ops α) (t : List α)
    (n : ℕ) (ps : List (Partials α)) : DoseVec α :=
  let Dt := (ps.map Partials.dt).sum
  let VLI := (ps.map Partials.vli).sum / 1000
  let Dd := 4 * (ps.map Partials.dd).sum
  let De := 0.5 * (ps.map Partials.de).sum
  let Dr := 4 * ops.pi * (ps.map Partials.dr).sum
  let duration := if 2 ≤ n then max (t.getLastD 0 - t.headD 0) 1e-12
    else max Dt 1e-12
  let DtPct := 100 * (Dt / duration)
  if 0 < Dt then
    ⟨Dt, VLI, Dd, De, Dr, DtPct, Dd / Dt, De / Dt, Dr / Dt,
     (ps.map Partials.spl).sum / Dt, (ps.map Partials.f0).sum / Dt,
     npStd ops (ps.map Partials.spl), npStd ops (ps.map Partials.f0)⟩
  else
    ⟨Dt, VLI, Dd, De, Dr, DtPct, 0, 0, 0, 0, 0, 0, 0⟩

/-- DOSI with the state of the input array made explicit: the second
component is the data array as left by the call. -/
def DOSIrun {α : Type} [LinearOrderedField α] (ops : Ops α) (ncols : ℕ)
    (data : List (List α)) (g : GenderArg) :
    Except String (DoseVec α) × List (List α) :=
  if ncols < 3 then
    (.error "DOSI expects data with shape (n,3): [time, SPL, F0].", data)
  else
    match resolveGender g with
    | .error e => (.error e, data)
    | .ok m =>
      let t := colT data
      let step := dosiLoop ops m (inferTimeStep t) data
      (.ok (doseTotals ops t data.length step.1), step.2)

/-- F0 bounds step of analyze_wav_spl_f0.py: zero F0 outside [lo, hi]. -/
def boundF0 {α : Type} [LinearOrderedField α] (lo hi : α) (f0 : List α) :
    List α :=
  f0.map (fun v => if v < lo ∨ v > hi then 0 else v)

/-- Distance-correction shift of analyze_wav_spl_f0.py:
20*log10(max(distance_cal,1e-9)/max(target,1e-9)), subtracted from SPL. -/
def distShift {α : Type} [LinearOrderedField α] (ops : Ops α)
    (dcal dtar : α) : α :=
  20 * ops.log10 (max dcal 1e-9 / max dtar 1e-9)

/-- Noise-floor gate of analyze_wav_spl_f0.py: zero SPL below 50 dB. -/
def gateSPL {α : Type} [LinearOrderedField α] (dB : List α) : List α :=
  dB.map (fun v => if v < 50 then 0 else v)

/-- The four aligned series produced by the alignment block. -/
structure Aligned (α : Type) where
  time : List α
  dB : List α
  F0 : List α
  CPPS : List α

/-- The alignment block of analyze_wav_spl_f0.py: truncate all series to the
common length, zero F0 outside bounds, distance-correct SPL, gate SPL below
the 50 dB noise floor, then cross-mask F0, SPL and CPPS wherever F0 or SPL
is zero. -/
def alignTimeline {α : Type} [LinearOrderedField α] (ops : Ops α)
    (dB F0 CPPS wt : List α) (lo hi dcal dtar : α) : Aligned α :=
  let limit := min (min dB.length F0.length) (min wt.length CPPS.length)
  let dB1 := dB.take limit
  let wt1 := wt.take limit
  let F01 := F0.take limit
  let CPPS1 := CPPS.take limit
  let F02 := boundF0 lo hi F01
  let dB2 := dB1.map (fun v => v - distShift ops dcal dtar)
  let dB3 := gateSPL dB2
  let F0f := List.zipWith (fun f d => if f = 0 ∨ d = 0 then 0 else f) F02 dB3
  let dBf := List.zipWith (fun f d => if f = 0 ∨ d = 0 then 0 else d) F02 dB3
  let CPPSf := List.zipWith (fun fd c => if fd.1 = (0:α) ∨ fd.2 = (0:α) then 0 else c)
    (F02.zip dB3) CPPS1
  ⟨wt1, dBf, F0f, CPPSf⟩

/-- One index of the alignment block, as a function of the truncated input
values at that index: returns (F0, SPL, CPPS) after bounds, distance
correction, gating and cross-masking. -/
def rowAlign {α : Type} [LinearOrderedField α] (ops : Ops α)
    (lo hi dcal dtar : α) (f d c : α) : α × α × α :=
  let f1 := if f < lo ∨ f > hi then 0 else f
  let d1 := d - distShift ops dcal dtar
  let d2 := if d1 < 50 then 0 else d1
  if f1 = 0 ∨ d2 = 0 then (0, 0, 0) else (f1, d2, c)

/-- The values of the series inside the window that np.convolve with mode
same and a length-w kernel of ones places around output position i: the
mode-same output has max(len, w) entries, and the window at position i
covers input indices i + c - w + 1 through i + c with
c = (min(len, w) - 1) / 2, the centering offset of the shorter operand
(out-of-range positions are zero-padded, hence dropped). -/
def winVals {α : Type} [LinearOrderedField α] (s : List α) (i w : ℕ) :
    List α :=
  (List.range w).filterMap (fun (k : ℕ) =>
    let j : ℤ := (i : ℤ) + (((min s.length w - 1) / 2 : ℕ) : ℤ) - (k : ℤ)
    if 0 ≤ j ∧ j < (s.length : ℤ) then some (s.getD j.toNat 0) else none)

/-- The quotient of the two mode-same convolutions of
_moving_mean_ignore_zeros, with zero forced where the count of positive
samples is below 1: one entry per output position of np.convolve, which
returns max(len, w) entries in mode same. -/
def convSameOut {α : Type} [LinearOrderedField α] (s : List α) (w : ℕ) :
    List α :=
  (List.range (max s.length w)).map (fun i =>
    let vals := winVals s i w
    let num := (vals.map (fun v => if 0 < v then v else 0)).sum
    let den := (vals.map (fun v => if 0 < v then (1:α) else 0)).sum
    if den < 1 then 0 else num / max den 1e-9)

/-- moving_mean_ignore_zeros of analyze_wav_spl_f0.py: windowed mean of the
strictly positive samples, with positions whose window has no contributing
sample forced to zero. A window length below 1 yields an all-zero output
of the series length without convolving; otherwise np.convolve raises
ValueError on an empty series and returns max(len, w) entries. -/
def moving_mean_ignore_zeros {α : Type} [LinearOrderedField α]
    (s : List α) (w : ℕ) : Except String (List α) :=
  if w < 1 then .ok (s.map (fun _ => 0))
  else if s.length = 0 then .error "ValueError: a cannot be empty"
  else .ok (convSameOut s w)

/-- Python round applied to (N-1)/2 (true division): used by both frame
levelers to pick the timestamp sample inside a frame. Half-integers round
to even, as in Python 3. -/
def midOffset (N : ℕ) : ℕ :=
  if N % 2 = 1 then (N - 1) / 2
  else if N = 0 then 0
  else if (N / 2 - 1) % 2 = 0 then N / 2 - 1 else N / 2

/-- Truncation toward zero, modelling Python int() on a float. -/
def ratTrunc (q : ℚ) : ℤ := if 0 ≤ q then ⌊q⌋ else ⌈q⌉

/-- Frame length of SPL_fast_C_TH: N = int(duration * Fs). -/
def cthN (duration : ℚ) (Fs : ℕ) : ℤ := ratTrunc (duration * (Fs : ℚ))

/-- Number of frames of SPL_fast_C_TH: the length of
np.arange(N, len(x) - N, N). -/
def cthCount (len N : ℕ) : ℕ :=
  if len ≤ 2 * N then 0 else (len - 2 * N + N - 1) / N

/-- Frame start offsets of SPL_fast_C_TH: np.arange(N, len(x) - N, N). -/
def cthStarts (len N : ℕ) : List ℕ :=
  (List.range (cthCount len N)).map (fun i => (i + 1) * N)

/-- The frames SPL_fast_C_TH extracts: x[start : start + N] for each start. -/
def cthFrames {α : Type} (x : List α) (N : ℕ) : List (List α) :=
  (cthStarts x.length N).map (fun s => (x.drop s).take N)

/-- The frame timestamps of SPL_fast_C_TH:
window_time = t[window_start + round((N - 1) / 2)] with
t = np.arange(len(x)) / Fs. -/
def cthWindowTime (α : Type) [LinearOrderedField α] (len N Fs : ℕ) :
    List α :=
  (cthStarts len N).map (fun s => ((s + midOffset N : ℕ) : α) / (Fs : α))

/-- The framing stage of SPL_fast_C_TH: the frames and their timestamps,
or the IndexError the per-frame loop raises reading window_time[1] when
exactly one frame start exists (the loop body multiplies every level by
the gap between the first two timestamps; with no frame the loop does not
run and nothing is raised). -/
def cthFraming (α : Type) [LinearOrderedField α] (x : List α)
    (N Fs : ℕ) : Except String (List (List α) × List α) :=
  if cthCount x.length N = 1 then .error "IndexError: window_time[1]"
  else .ok (cthFrames x N, cthWindowTime α x.length N Fs)

/-- Power-of-two frame length of SPL_fast:
N = 2 ** ceil(log2(ceil(0.05 * Fs))). -/
def splFastN (Fs : ℕ) : ℕ := 2 ^ (Nat.clog 2 ((Fs + 19) / 20))

/-- Frame start offsets of SPL_fast: np.arange(0, len(x) - N + 1, N). -/
def splFastStarts (len N : ℕ) : List ℕ :=
  (List.range (if N ≤ len then (len - N) / N + 1 else 0)).map (fun i => i * N)

/-- The mean-energy computation of stimaLivello: FFT magnitudes with exact
zeros floored at 1e-17, restricted to bins below Nyquist, summed as energy
per bin and divided by the frame duration in seconds. -/
def stimaME {α : Type} [LinearOrderedField α] (ops : Ops α)
    (x : List α) (Fs : ℕ) : α :=
  let X0 := ops.fftAbs x
  let X1 := X0.map (fun v => if v = 0 then 1e-17 else v)
  let X := X1.take ((X1.length + 1) / 2)
  let total := (X.map (fun v => v ^ 2)).sum / (X.length : α)
  total / ((1 / (Fs : α)) * (x.length : α))

/-- The restricted, floored magnitude spectrum of stimaLivello. -/
def stimaMag {α : Type} [LinearOrderedField α] (ops : Ops α)
    (x : List α) : List α :=
  let X0 := ops.fftAbs x
  let X1 := X0.map (fun v => if v = 0 then 1e-17 else v)
  X1.take ((X1.length + 1) / 2)

/-- A float dB value: bottom models negative infinity, the value log10
would produce on a nonpositive argument. -/
def dbLog {α : Type} [LinearOrderedField α] (ops : Ops α) (c : α) (x : α) :
    WithBot α :=
  if x ≤ 0 then ⊥ else (↑(c * ops.log10 x) : WithBot α)

/-- stimaLivello of voxdose_core/stima_livello.py: returns the
log-magnitude spectrum and the level, which is exactly negative infinity
when the mean energy is at or below 1e-20 and 10*log10(meanEnergy) + C
otherwise. -/
def stimaLivello {α : Type} [LinearOrderedField α] (ops : Ops α)
    (x : List α) (Fs : ℕ) (C : α) : List (WithBot α) × WithBot α :=
  let ME := stimaME ops x Fs
  let spec := (stimaMag ops x).map (dbLog ops 20)
  if ME ≤ 1e-20 then (spec, ⊥)
  else (spec, (↑(10 * ops.log10 ME + C) : WithBot α))

/-- SPL_fast of spl_fast.py: power-of-two framing from offset zero, one
level per frame at C = 50, timestamp-weighted mean divided by the last
frame time (or by the single frame time when only one frame exists).
Errors model the IndexError raised when no frame fits; a bottom mean
models a negative-infinity level propagating through the sum. -/
def SPL_fast {α : Type} [LinearOrderedField α] (ops : Ops α)
    (x : List α) (Fs : ℕ) : Except String (WithBot α) :=
  let N := splFastN Fs
  let starts := splFastStarts x.length N
  let wt : List α := starts.map (fun s => ((s + midOffset N : ℕ) : α) / (Fs : α))
  match wt with
  | [] => .error "IndexError: window_time[0]"
  | w0 :: rest =>
    let deltaT : α := match rest with
      | [] => 0.05
      | w1 :: _ => w1 - w0
    let levels := starts.map (fun s => (stimaLivello ops ((x.drop s).take N) Fs 50).2)
    let total := (levels.map (WithBot.map (fun L => L * deltaT))).foldr (· + ·) 0
    let denom : α := match rest with
      | [] => w0
      | _ => wt.getLastD 0
    .ok (WithBot.map (fun v => v / denom) total)

/-- The calibration block of analyze_wav_spl_f0.py. The first argument is
the outcome of reading the calibration file (none when no file was given,
error when decoding raised); the second is the reference SPL. A top
calibration constant models the infinite value 50 + R - (-inf). Any error
falls back to the uncalibrated constant 50 with is_calibrated false. -/
def calibStep {α : Type} [LinearOrderedField α] (ops : Ops α)
    (calRead : Option (Except String (List α × ℕ))) (R : Option α) :
    WithTop α × Bool :=
  match calRead, R with
  | some readResult, some r =>
    match readResult with
    | .error _ => ((50 : α), false)
    | .ok (x, Fs) =>
      match SPL_fast ops x Fs with
      | .error _ => ((50 : α), false)
      | .ok ⊥ => (⊤, true)
      | .ok (some l0) => ((↑(50 + r - l0) : WithTop α), true)
  | _, _ => ((50 : α), false)

/-- A concrete, fully computable instantiation of the numeric primitives
over the rationals, used to evaluate the embedding on concrete inputs. -/
def trivOps : Ops ℚ := ⟨fun x => x, fun _ => 1, fun _ => 0, 3, fun l => l⟩

/-- The common truncation length of the alignment block:
min(len(dB), len(F0), len(windowTime), len(CPPS)). -/
def alignLimit {α : Type} (dB F0 CPPS wt : List α) : ℕ :=
  min (min dB.length F0.length) (min wt.length CPPS.length)

/-- Index i of the truncated F0 series is invalidated by the F0-bounds
check: its value lies outside [lo, hi]. -/
def boundsFiredAt {α : Type} [LinearOrderedField α] (lo hi : α)
    (F0t : List α) (i : ℕ) : Prop :=
  F0t.getD i 0 < lo ∨ F0t.getD i 0 > hi

/-- Index i of the truncated SPL series is invalidated by the noise-floor
gate: its distance-corrected value is below 50 dB. -/
def gateFiredAt {α : Type} [LinearOrderedField α] (ops : Ops α)
    (dcal dtar : α) (dBt : List α) (i : ℕ) : Prop :=
  dBt.getD i 0 - distShift ops dcal dtar < 50

/-- Index i is caught by the cross-mask: after the bounds check and the
noise-floor gate, F0 or SPL is zero there. -/
def maskAt {α : Type} [LinearOrderedField α] (ops : Ops α)
    (lo hi dcal dtar : α) (F0t dBt : List α) (i : ℕ) : Prop :=
  (boundF0 lo hi F0t).getD i 0 = 0 ∨
  (gateSPL (dBt.map (fun v => v - distShift ops dcal dtar))).getD i 0 = 0

/-- An unrecognized selector as the code actually treats it: only a string
selector whose lower-cased form is none of the three names is rejected
(every integer selector is accepted). -/
def badSel : GenderArg → Prop
  | .gint _ => False
  | .gstr s =>
    ¬(pyLower s = "male" ∨ pyLower s = "female" ∨ pyLower s = "other")

lemma getD_mem_of_lt {α : Type} (l : List α) (i : ℕ) (d : α)
    (h : i < l.length) : l.getD i d ∈ l := by
  rw [List.getD_eq_getElem l d h]
  exact List.getElem_mem h

lemma npMedian_pos {α : Type} [LinearOrderedField α] (l : List α)
    (hne : l ≠ []) (hpos : ∀ x ∈ l, 0 < x) : 0 < npMedian l := by
  unfold npMedian
  have hlen : (l.mergeSort (· ≤ ·)).length = l.length := List.length_mergeSort l
  have hmem : ∀ x ∈ l.mergeSort (· ≤ ·), 0 < x := by
    intro x hx
    exact hpos x (List.mem_mergeSort.mp hx)
  have hL : 1 ≤ (l.mergeSort (· ≤ ·)).length := by
    rw [hlen]
    exact List.length_pos.mpr hne
  set s := l.mergeSort (· ≤ ·) with hs
  by_cases hodd : s.length % 2 = 1
  · simp only [hodd, if_true]
    exact hmem _ (getD_mem_of_lt s _ 0 (by omega))
  · simp only [hodd, if_false]
    have h2 : 2 ≤ s.length := by omega
    have ha := hmem _ (getD_mem_of_lt s (s.length / 2 - 1) 0 (by omega))
    have hb := hmem _ (getD_mem_of_lt s (s.length / 2) 0 (by omega))
    positivity

lemma inferTimeStep_pos {α : Type} [LinearOrderedField α] (t : List α) :
    0 < inferTimeStep t := by
  unfold inferTimeStep
  by_cases h2 : 2 ≤ t.length
  · simp only [h2, if_true]
    by_cases hnil : (npDiff t).filter (fun d => 0 < d) = []
    · simp only [hnil, if_true]
      norm_num
    · simp only [hnil, if_false]
      apply npMedian_pos _ hnil
      intro x hx
      have := List.of_mem_filter hx
      exact of_decide_eq_true this
  · simp only [h2, if_false]
    norm_num

/-- C10: the inferred nominal time step of DOSI falls back to 0.05 s both
when there are fewer than 2 rows and when no consecutive time difference is
strictly positive; otherwise it is the median of the strictly positive
consecutive differences (and in particular strictly positive). -/
theorem C10_time_step_fallback {α : Type} [LinearOrderedField α]
    (t : List α) :
    (t.length < 2 → inferTimeStep t = 0.05) ∧
    (2 ≤ t.length → (∀ d ∈ npDiff t, d ≤ 0) → inferTimeStep t = 0.05) ∧
    ((∃ d ∈ npDiff t, 0 < d) →
      inferTimeStep t = npMedian ((npDiff t).filter (fun d => 0 < d)) ∧
      0 < inferTimeStep t) := by
  refine ⟨?_, ?_, ?_⟩
  · intro h
    unfold inferTimeStep
    simp only [show ¬ 2 ≤ t.length by omega, if_false]
  · intro h2 hnp
    unfold inferTimeStep
    simp only [h2, if_true]
    have : (npDiff t).filter (fun d => 0 < d) = [] := by
      rw [List.filter_eq_nil_iff]
      intro a ha
      simp only [decide_eq_true_eq, not_lt]
      exact hnp a ha
    simp only [this, if_true]
  · rintro ⟨d, hd, hdpos⟩
    have h2 : 2 ≤ t.length := by
      have h1 : 1 ≤ (npDiff t).length := List.length_pos.mpr (List.ne_nil_of_mem hd)
      unfold npDiff at h1
      rw [List.length_zipWith, List.length_tail] at h1
      omega
    have hne : (npDiff t).filter (fun d => 0 < d) ≠ [] := by
      intro hnil
      have := List.filter_eq_nil_iff.mp hnil d hd
      simp [hdpos] at this
    constructor
    · unfold inferTimeStep
      simp only [h2, if_true, hne, if_false]
    · exact inferTimeStep_pos t

/-- C10 witness: a concrete series with a non-increasing pair still using
the median, and a short series falling back to the default. -/
theorem C10_time_step_fallback_witness :
    inferTimeStep [(0 : ℚ), 2, 1, 3] =
      npMedian ((npDiff [(0 : ℚ), 2, 1, 3]).filter (fun d => 0 < d)) ∧
    inferTimeStep [(7 : ℚ)] = 0.05 ∧
    inferTimeStep [(0 : ℚ), 0, 0] = 0.05 := by
  refine ⟨((C10_time_step_fallback [(0 : ℚ), 2, 1, 3]).2.2 ?_).1,
    (C10_time_step_fallback [(7 : ℚ)]).1 (by norm_num),
    (C10_time_step_fallback [(0 : ℚ), 0, 0]).2.1 (by norm_num) ?_⟩
  · refine ⟨2, ?_, by norm_num⟩
    norm_num [npDiff]
  · intro d hd
    norm_num [npDiff] at hd
    exact le_of_eq hd

lemma partialsAt_not_voiced {α : Type} [LinearOrderedField α] (ops : Ops α)
    (m : GenderMode) (ts spl f0 : α) (h : ¬(0 < f0 ∧ 0 < spl)) :
    partialsAt ops m ts spl f0 = zeroPartials := by
  unfold partialsAt
  simp only [h, if_false]

lemma doseCore_all_invalid {α : Type} [LinearOrderedField α] (ops : Ops α)
    (m : GenderMode) (data : List (List α))
    (hv : ∀ r ∈ data, ¬(0 < r.getD 2 0 ∧ 0 < r.getD 1 0)) :
    doseCore ops m data = zeroDose := by
  unfold doseCore
  have hz : ∀ p ∈ dosiPartials ops m data, p = zeroPartials := by
    intro p hp
    rcases List.mem_map.mp hp with ⟨r, hr, hpr⟩
    rw [← hpr]
    exact partialsAt_not_voiced _ _ _ _ _ (hv r hr)
  have hsum : ∀ f : Partials α → α, f zeroPartials = 0 →
      ((dosiPartials ops m data).map f).sum = 0 := by
    intro f hf
    apply List.sum_eq_zero
    intro x hx
    rcases List.mem_map.mp hx with ⟨p, hp, hxp⟩
    rw [← hxp, hz p hp, hf]
  simp only [hsum Partials.dt rfl, hsum Partials.vli rfl, hsum Partials.dd rfl,
    hsum Partials.de rfl, hsum Partials.dr rfl, hsum Partials.spl rfl,
    hsum Partials.f0 rfl]
  norm_num [zeroDose]

/-- C2: on any input in which no row is voiced-valid (no row has both
F0 > 0 and SPL > 0), DOSI returns the dose vector all of whose 13 entries
are exactly zero. -/
theorem C2_no_voiced_frames_zero_dose {α : Type} [LinearOrderedField α]
    (ops : Ops α) (ncols : ℕ) (data : List (List α)) (g : GenderArg)
    (m : GenderMode) (h3 : 3 ≤ ncols) (hg : resolveGender g = .ok m)
    (hv : ∀ r ∈ data, ¬(0 < r.getD 2 0 ∧ 0 < r.getD 1 0)) :
    DOSI ops ncols data g = .ok zeroDose ∧
    (zeroDose : DoseVec α).toList = List.replicate 13 0 := by
  constructor
  · unfold DOSI
    simp only [show ¬ ncols < 3 by omega, if_false, hg]
    rw [doseCore_all_invalid ops m data hv]
  · simp [zeroDose, DoseVec.toList, List.replicate]

/-- C2 witness: a concrete three-column timeline whose F0 column is zero. -/
theorem C2_no_voiced_frames_zero_dose_witness :
    DOSI trivOps 3 [[(0 : ℚ), 61, 0], [(0.05 : ℚ), 66, 0]] (.gstr "male") =
      .ok zeroDose ∧
    (zeroDose : DoseVec ℚ).toList = List.replicate 13 0 :=
  C2_no_voiced_frames_zero_dose trivOps 3 _ _ .male (by norm_num) rfl
    (by
      intro r hr
      simp only [List.mem_cons, List.not_mem_nil, or_false] at hr
      rcases hr with rfl | rfl <;> norm_num [List.getD])

lemma resolveGender_int (n : ℤ) :
    resolveGender (.gint n) =
      resolveGender (.gstr (if n = 1 then "male" else "female")) := by
  unfold resolveGender
  rfl

lemma resolveGender_int_ok (n : ℤ) :
    resolveGender (.gint n) = .ok (if n = 1 then .male else .female) := by
  unfold resolveGender
  by_cases hn : n = 1 <;> simp only [hn, if_true, if_false] <;> rfl

lemma badSel_iff_error (g : GenderArg) :
    badSel g ↔ ∃ e, resolveGender g = .error e := by
  cases g with
  | gint n =>
    rw [resolveGender_int_ok n]
    simp only [badSel]
    constructor
    · intro h
      cases h
    · rintro ⟨e, he⟩
      cases he
  | gstr s =>
    unfold badSel resolveGender
    by_cases hm : pyLower s = "male"
    · simp [hm]
    · by_cases hff : pyLower s = "female"
      · simp [hm, hff]
      · by_cases ho : pyLower s = "other"
        · simp [hm, hff, ho]
        · simp [hm, hff, ho]

/-- C3 (amended): DOSI signals an input error exactly when the data has
fewer than 3 columns or the selector is a string whose lower-cased form is
none of male, female, other; every integer selector is accepted, acting as
male when it equals 1 and as female otherwise, so the integer 2 is silently
corrected to female rather than rejected. -/
theorem C3_validation_errors {α : Type} [LinearOrderedField α]
    (ops : Ops α) (ncols : ℕ) (data : List (List α)) (g : GenderArg) :
    ((∃ e, DOSI ops ncols data g = .error e) ↔ (ncols < 3 ∨ badSel g)) ∧
    (∀ n : ℤ, DOSI ops ncols data (.gint n) =
      DOSI ops ncols data (.gstr (if n = 1 then "male" else "female"))) := by
  constructor
  · by_cases h3 : ncols < 3
    · constructor
      · intro _
        exact Or.inl h3
      · intro _
        refine ⟨"DOSI expects data with shape (n,3): [time, SPL, F0].", ?_⟩
        unfold DOSI
        rw [if_pos h3]
    · rw [or_iff_right h3]
      constructor
      · rintro ⟨e, he⟩
        unfold DOSI at he
        rw [if_neg h3] at he
        rcases hres : resolveGender g with e1 | m1
        · exact (badSel_iff_error g).mpr ⟨e1, hres⟩
        · rw [hres] at he
          cases he
      · intro hb
        rcases (badSel_iff_error g).mp hb with ⟨e, he⟩
        refine ⟨e, ?_⟩
        unfold DOSI
        rw [if_neg h3, he]
  · intro n
    unfold DOSI
    rw [resolveGender_int n]

/-- C3 counterexample: the unrecognized integer selector 2 does not raise;
it is silently corrected to the female formulation. -/
theorem C3_validation_errors_counterexample :
    (DOSI trivOps 3 [[(0 : ℚ), 80, 200]] (.gint 2)).isOk = true ∧
    DOSI trivOps 3 [[(0 : ℚ), 80, 200]] (.gint 2) =
      DOSI trivOps 3 [[(0 : ℚ), 80, 200]] (.gstr "female") := by
  have h2 : resolveGender (.gint 2) = .ok .female := rfl
  have hf : resolveGender (.gstr "female") = .ok .female := rfl
  unfold DOSI
  rw [h2, hf]
  exact ⟨rfl, rfl⟩

lemma dosiLoop_snd {α : Type} [LinearOrderedField α] (ops : Ops α)
    (m : GenderMode) (ts : α) (data : List (List α)) :
    (dosiLoop ops m ts data).2 = data := by
  induction data with
  | nil => rfl
  | cons r rs ih =>
    unfold dosiLoop
    simp only [ih]

/-- C9: DOSI does not modify its input; with a valid column count and a
recognized gender selector, the data array after the call is the array
that was passed in. -/
theorem C9_input_not_modified {α : Type} [LinearOrderedField α]
    (ops : Ops α) (ncols : ℕ) (data : List (List α)) (g : GenderArg)
    (h3 : 3 ≤ ncols) (hg : (resolveGender g).isOk = true) :
    (DOSIrun ops ncols data g).2 = data := by
  rcases hok : resolveGender g with e | m
  · rw [hok] at hg
    simp [Except.isOk, Except.toBool] at hg
  · unfold DOSIrun
    rw [if_neg (by omega), hok]
    simp only [dosiLoop_snd]

/-- C9 witness: a concrete call leaves the concrete array unchanged. -/
theorem C9_input_not_modified_witness :
    (DOSIrun trivOps 3 [[(0 : ℚ), 80, 200], [(0.05 : ℚ), 70, 0]]
      (.gstr "other")).2 = [[(0 : ℚ), 80, 200], [(0.05 : ℚ), 70, 0]] :=
  C9_input_not_modified trivOps 3 _ _ (by norm_num) rfl

lemma sum_map_if_pos {α : Type} [LinearOrderedField α] (l : List α) :
    (l.map (fun v => if 0 < v then v else 0)).sum =
      (l.filter (fun v => decide (0 < v))).sum := by
  induction l with
  | nil => rfl
  | cons a l ih =>
    by_cases ha : 0 < a
    · simp [List.filter_cons, ha, ih]
    · simp [List.filter_cons, ha, ih]

lemma sum_map_if_pos_one {α : Type} [LinearOrderedField α] (l : List α) :
    (l.map (fun v => if 0 < v then (1:α) else 0)).sum =
      ((l.filter (fun v => decide (0 < v))).length : α) := by
  induction l with
  | nil => simp
  | cons a l ih =>
    by_cases ha : 0 < a
    · simp [List.filter_cons, ha, ih]
      ring
    · simp [List.filter_cons, ha, ih]

/-- C8 (amended): for window length at or above 1 and a nonempty series,
the moving averager returns max(len, w) entries, the output length of
np.convolve in mode same; each entry is the arithmetic mean of the
strictly positive samples inside its window, and exactly 0 where the
window holds no strictly positive sample; zero and negative samples
contribute to neither numerator nor denominator. -/
theorem C8_moving_mean_positive_only {α : Type} [LinearOrderedField α]
    (s : List α) (w : ℕ) (hw : 1 ≤ w) (hs : s ≠ []) :
    moving_mean_ignore_zeros s w = .ok (convSameOut s w) ∧
    (convSameOut s w).length = max s.length w ∧
    ∀ i, i < max s.length w →
      (convSameOut s w).getD i 0 =
        (if (winVals s i w).filter (fun v => decide (0 < v)) = [] then 0
         else ((winVals s i w).filter (fun v => decide (0 < v))).sum /
           (((winVals s i w).filter (fun v => decide (0 < v))).length : α)) := by
  have hw' : ¬ w < 1 := by omega
  have hs' : ¬ s.length = 0 := by simpa [List.length_eq_zero] using hs
  refine ⟨?_, ?_, ?_⟩
  · unfold moving_mean_ignore_zeros
    rw [if_neg hw', if_neg hs']
  · unfold convSameOut
    simp
  · intro i hi
    unfold convSameOut
    have hlen : i < ((List.range (max s.length w)).map (fun i =>
        let vals := winVals s i w
        let num := (vals.map (fun v => if 0 < v then v else 0)).sum
        let den := (vals.map (fun v => if 0 < v then (1:α) else 0)).sum
        if den < 1 then 0 else num / max den 1e-9)).length := by
      simpa using hi
    rw [List.getD_eq_getElem _ _ hlen, List.getElem_map, List.getElem_range]
    simp only [sum_map_if_pos, sum_map_if_pos_one]
    set P := (winVals s i w).filter (fun v => decide (0 < v)) with hP
    by_cases hnil : P = []
    · rw [if_pos hnil, if_pos]
      rw [hnil]
      norm_num
    · rw [if_neg hnil, if_neg]
      · have h1 : (1:α) ≤ (P.length : α) := by
          have : 1 ≤ P.length := List.length_pos.mpr hnil
          exact_mod_cast this
        rw [max_eq_left (by
          calc (1e-9 : α) ≤ 1 := by norm_num
          _ ≤ (P.length : α) := h1)]
      · have h1 : (1:α) ≤ (P.length : α) := by
          have : 1 ≤ P.length := List.length_pos.mpr hnil
          exact_mod_cast this
        exact not_lt.mpr h1

/-- C8 witness: a concrete window holding one positive, one negative and
one zero sample averages only the positive one; and a window longer than
the series yields window-many entries, the last of which averages the
lone positive sample reachable through the shifted window. -/
theorem C8_moving_mean_positive_only_witness :
    ((convSameOut [(2:ℚ), -5, 0, 3] 3).getD 0 0 =
      (if (winVals [(2:ℚ), -5, 0, 3] 0 3).filter (fun v => decide (0 < v)) = []
       then 0
       else ((winVals [(2:ℚ), -5, 0, 3] 0 3).filter
          (fun v => decide (0 < v))).sum /
         (((winVals [(2:ℚ), -5, 0, 3] 0 3).filter
          (fun v => decide (0 < v))).length : ℚ))) ∧
    moving_mean_ignore_zeros [(0:ℚ), 5] 3 = .ok (convSameOut [(0:ℚ), 5] 3) ∧
    (convSameOut [(0:ℚ), 5] 3).length = max [(0:ℚ), 5].length 3 ∧
    (convSameOut [(0:ℚ), 5] 3).getD 2 0 = 5 := by
  have h1 := C8_moving_mean_positive_only [(2:ℚ), -5, 0, 3] 3 (by norm_num)
    (by simp)
  have h2 := C8_moving_mean_positive_only [(0:ℚ), 5] 3 (by norm_num) (by simp)
  refine ⟨h1.2.2 0 (by simp), h2.1, h2.2.1, ?_⟩
  have hv : winVals [(0:ℚ), 5] 2 3 = [5, 0] := by
    unfold winVals
    rw [show List.range 3 = [0, 1, 2] from rfl]
    simp only [List.filterMap_cons, List.filterMap_nil]
    norm_num [List.getD]
  have h3 := h2.2.2 2 (by simp)
  rw [h3, hv]
  norm_num [List.filter_cons, List.filter_nil]

/-- C8 counterexample: a lone negative sample is excluded by the averager,
which outputs 0, not the mean -1 of the nonzero values in the window. -/
theorem C8_moving_mean_positive_only_counterexample :
    moving_mean_ignore_zeros [(-1 : ℚ)] 1 = .ok [0] ∧
    moving_mean_ignore_zeros [(-1 : ℚ)] 1 ≠ .ok [-1] := by
  have hv : winVals [(-1:ℚ)] 0 1 = [-1] := by
    unfold winVals
    rw [show List.range 1 = [0] from rfl]
    rw [List.filterMap_cons]
    norm_num [List.getD]
  have hlist : convSameOut [(-1:ℚ)] 1 = [0] := by
    unfold convSameOut
    rw [show List.range (max [(-1:ℚ)].length 1) = [0] from rfl]
    simp only [List.map_cons, List.map_nil, hv]
    norm_num
  have h : moving_mean_ignore_zeros [(-1 : ℚ)] 1 = .ok [0] := by
    unfold moving_mean_ignore_zeros
    rw [if_neg (by norm_num), if_neg (by simp), hlist]
  refine ⟨h, ?_⟩
  rw [h]
  intro hc
  have h2 : ([0] : List ℚ) = [-1] := Except.ok.inj hc
  have h3 : (0 : ℚ) = -1 := List.head_eq_of_cons_eq h2
  norm_num at h3

lemma getD_map_lt {α β : Type} (f : α → β) (l : List α) (i : ℕ) (da : α)
    (db : β) (h : i < l.length) :
    (l.map f).getD i db = f (l.getD i da) := by
  rw [List.getD_eq_getElem _ _ (by simpa using h), List.getElem_map,
    List.getD_eq_getElem _ _ h]

lemma midOffset_lt (N : ℕ) (hN : 1 ≤ N) : midOffset N < N := by
  unfold midOffset
  split
  · omega
  · split
    · omega
    · split <;> omega

lemma cthCount_eq_one_iff (len N : ℕ) (hN : 1 ≤ N) :
    cthCount len N = 1 ↔ (2 * N < len ∧ len ≤ 3 * N) := by
  unfold cthCount
  by_cases hL : len ≤ 2 * N
  · rw [if_pos hL]
    omega
  · rw [if_neg hL]
    constructor
    · intro h
      refine ⟨by omega, ?_⟩
      by_contra hgt
      have hv : 2 ≤ (len - 2 * N + N - 1) / N := by
        rw [Nat.le_div_iff_mul_le (by omega)]
        omega
      rw [h] at hv
      omega
    · intro h
      have he : len - 2 * N + N - 1 = N * 1 + (len - 2 * N - 1) := by omega
      rw [he, Nat.mul_add_div (by omega),
        Nat.div_eq_of_lt (by omega)]

/-- C5 (amended): the monitoring-pass frame leveler with frame length
N = int(duration * Fs) produces ceil((len - 2N)/N) frames (none when
len is at most 2N), whose start offsets are the multiples of N beginning
at N, not at 0, and stopping strictly before len - N; every produced
frame is full (exactly N samples) and carries the timestamp of sample
start + round((N - 1)/2), a valid index inside the frame; the per-frame
loop raises IndexError reading window_time[1] exactly when one frame is
produced, that is when 2N < len and len is at most 3N. -/
theorem C5_framing {α : Type} [LinearOrderedField α] (x : List α)
    (N Fs : ℕ) (hN : 1 ≤ N) :
    (0 : ℕ) ∉ cthStarts x.length N ∧
    (cthFrames x N).length = cthCount x.length N ∧
    (∀ i, i < cthCount x.length N →
      (cthStarts x.length N).getD i 0 = (i + 1) * N ∧
      (i + 1) * N + N < x.length ∧
      ((x.drop ((i + 1) * N)).take N).length = N ∧
      (cthWindowTime α x.length N Fs).getD i 0 =
        (((i + 1) * N + midOffset N : ℕ) : α) / (Fs : α) ∧
      midOffset N < N ∧
      (i + 1) * N + midOffset N < x.length) ∧
    ((cthFraming α x N Fs).isOk = false ↔
      (2 * N < x.length ∧ x.length ≤ 3 * N)) := by
  have hcount : ∀ i, i < cthCount x.length N → (i + 1) * N + N < x.length := by
    intro i hi
    unfold cthCount at hi
    by_cases hL : x.length ≤ 2 * N
    · rw [if_pos hL] at hi
      omega
    · rw [if_neg hL] at hi
      have h1 : i + 1 ≤ (x.length - 2 * N + N - 1) / N := hi
      have h2 : (i + 1) * N ≤ x.length - 2 * N + N - 1 :=
        (Nat.le_div_iff_mul_le (by omega)).mp h1
      omega
  refine ⟨?_, ?_, ?_, ?_⟩
  · intro h0
    rcases List.mem_map.mp h0 with ⟨i, _, hi0⟩
    rcases Nat.mul_eq_zero.mp hi0 with h | h <;> omega
  · unfold cthFrames cthStarts
    simp
  · intro i hi
    have hb := hcount i hi
    have hmo := midOffset_lt N hN
    have hstart : (cthStarts x.length N).getD i 0 = (i + 1) * N := by
      unfold cthStarts
      rw [List.getD_eq_getElem _ _ (by simpa [cthStarts] using hi),
        List.getElem_map, List.getElem_range]
    refine ⟨hstart, hb, ?_, ?_, hmo, by omega⟩
    · rw [List.length_take, List.length_drop]
      omega
    · unfold cthWindowTime
      rw [getD_map_lt _ _ _ 0 0 (by simpa [cthStarts] using hi), hstart]
  · unfold cthFraming
    by_cases hc : cthCount x.length N = 1
    · rw [if_pos hc]
      constructor
      · intro _
        exact (cthCount_eq_one_iff x.length N hN).mp hc
      · intro _
        rfl
    · rw [if_neg hc]
      constructor
      · intro h
        simp [Except.isOk, Except.toBool] at h
      · intro h
        exact absurd ((cthCount_eq_one_iff x.length N hN).mpr h) hc

/-- C5 witness: with ten samples, N = 2 and Fs = 20 the first frame starts
at offset 2, is full, carries the timestamp of sample 2 + round((2-1)/2),
and the leveler does not raise, three frames being produced. -/
theorem C5_framing_witness :
    (cthStarts (List.replicate 10 (0:ℚ)).length 2).getD 0 0 = (0 + 1) * 2 ∧
    (((List.replicate 10 (0:ℚ)).drop ((0 + 1) * 2)).take 2).length = 2 ∧
    (cthWindowTime ℚ (List.replicate 10 (0:ℚ)).length 2 20).getD 0 0 =
      (((0 + 1) * 2 + midOffset 2 : ℕ) : ℚ) / ((20 : ℕ) : ℚ) ∧
    (cthFraming ℚ (List.replicate 10 (0:ℚ)) 2 20).isOk = true := by
  have h := C5_framing (List.replicate 10 (0:ℚ)) 2 20 (by norm_num)
  have hi : (0 : ℕ) < cthCount (List.replicate 10 (0:ℚ)).length 2 := by
    simp only [List.length_replicate]
    decide
  refine ⟨(h.2.2.1 0 hi).1, (h.2.2.1 0 hi).2.2.1, (h.2.2.1 0 hi).2.2.2.1, ?_⟩
  cases hb : (cthFraming ℚ (List.replicate 10 (0:ℚ)) 2 20).isOk
  · have h2 := h.2.2.2.mp hb
    simp only [List.length_replicate] at h2
    omega
  · rfl

/-- C5 counterexample: with ten samples, duration 0.1 s and Fs = 20 the
frame length is N = 2 but the start offsets are [2, 4, 6], not the five
multiples of N starting at 0 claimed by floor(len/N) framing; moreover
int() truncation makes N = 1 for duration 0.075 s at Fs = 20 where
rounding would give 2. -/
theorem C5_framing_counterexample :
    cthN (1/10 : ℚ) 20 = 2 ∧
    cthStarts 10 2 = [2, 4, 6] ∧
    cthStarts 10 2 ≠ List.map (fun i => i * 2) (List.range (10 / 2)) ∧
    (cthStarts 10 2).length ≠ 10 / 2 ∧
    cthN (3/40 : ℚ) 20 = 1 ∧
    round ((3 : ℚ)/40 * 20) = 2 := by
  refine ⟨?_, by decide, by decide, by decide, ?_, ?_⟩
  · unfold cthN ratTrunc
    rw [if_pos (by norm_num)]
    rw [show (1 : ℚ)/10 * ((20:ℕ):ℚ) = 2 by norm_num]
    norm_num
  · unfold cthN ratTrunc
    rw [if_pos (by norm_num)]
    rw [show (3 : ℚ)/40 * ((20:ℕ):ℚ) = 3/2 by norm_num]
    rw [Int.floor_eq_iff]
    norm_num
  · rw [round_eq]
    rw [show (3 : ℚ)/40 * 20 + 1/2 = 2 by norm_num]
    norm_num

lemma getD_zipWith_lt {α : Type} (f : α → α → α) (l m : List α) (i : ℕ)
    (da : α) (h1 : i < l.length) (h2 : i < m.length) :
    (List.zipWith f l m).getD i da = f (l.getD i da) (m.getD i da) := by
  rw [List.getD_eq_getElem _ _ (by rw [List.length_zipWith]; omega),
    List.getElem_zipWith, List.getD_eq_getElem _ _ h1,
    List.getD_eq_getElem _ _ h2]

lemma getD_zipWith_zip_lt {α β : Type} (g : α × α → α → β) (l m k : List α)
    (i : ℕ) (da : α) (db : β) (h1 : i < l.length) (h2 : i < m.length)
    (h3 : i < k.length) :
    (List.zipWith g (l.zip m) k).getD i db =
      g (l.getD i da, m.getD i da) (k.getD i da) := by
  rw [List.getD_eq_getElem _ _ (by
      rw [List.length_zipWith, List.length_zip]
      omega),
    List.getElem_zipWith, List.getElem_zip, List.getD_eq_getElem _ _ h1,
    List.getD_eq_getElem _ _ h2, List.getD_eq_getElem _ _ h3]

/-- C1: after the alignment steps run in their specified order, with a
positive lower F0 bound, an index holds F0 = 0 exactly when it was
invalidated by the F0-bounds check, the noise-floor gate or the
cross-mask; every invalidated index also holds SPL = 0 and CPPS = 0, and
every index satisfies either (F0 > 0 and SPL > 0) or
(F0 = 0 and SPL = 0 and CPPS = 0). -/
theorem C1_aligned_timeline_invariant {α : Type} [LinearOrderedField α]
    (ops : Ops α) (dB F0 CPPS wt : List α) (lo hi dcal dtar : α)
    (hlo : 0 < lo) :
    (alignTimeline ops dB F0 CPPS wt lo hi dcal dtar).F0.length =
      alignLimit dB F0 CPPS wt ∧
    ∀ i, i < alignLimit dB F0 CPPS wt →
      ((alignTimeline ops dB F0 CPPS wt lo hi dcal dtar).F0.getD i 0 = 0 ↔
        (boundsFiredAt lo hi (F0.take (alignLimit dB F0 CPPS wt)) i ∨
         gateFiredAt ops dcal dtar (dB.take (alignLimit dB F0 CPPS wt)) i ∨
         maskAt ops lo hi dcal dtar (F0.take (alignLimit dB F0 CPPS wt))
           (dB.take (alignLimit dB F0 CPPS wt)) i)) ∧
      ((boundsFiredAt lo hi (F0.take (alignLimit dB F0 CPPS wt)) i ∨
        gateFiredAt ops dcal dtar (dB.take (alignLimit dB F0 CPPS wt)) i ∨
        maskAt ops lo hi dcal dtar (F0.take (alignLimit dB F0 CPPS wt))
          (dB.take (alignLimit dB F0 CPPS wt)) i) →
        (alignTimeline ops dB F0 CPPS wt lo hi dcal dtar).F0.getD i 0 = 0 ∧
        (alignTimeline ops dB F0 CPPS wt lo hi dcal dtar).dB.getD i 0 = 0 ∧
        (alignTimeline ops dB F0 CPPS wt lo hi dcal dtar).CPPS.getD i 0 = 0) ∧
      ((0 < (alignTimeline ops dB F0 CPPS wt lo hi dcal dtar).F0.getD i 0 ∧
        0 < (alignTimeline ops dB F0 CPPS wt lo hi dcal dtar).dB.getD i 0) ∨
       ((alignTimeline ops dB F0 CPPS wt lo hi dcal dtar).F0.getD i 0 = 0 ∧
        (alignTimeline ops dB F0 CPPS wt lo hi dcal dtar).dB.getD i 0 = 0 ∧
        (alignTimeline ops dB F0 CPPS wt lo hi dcal dtar).CPPS.getD i 0 = 0)) := by
  set L := alignLimit dB F0 CPPS wt with hL
  have hLdB : L ≤ dB.length := by
    unfold alignLimit at hL
    omega
  have hLF0 : L ≤ F0.length := by
    unfold alignLimit at hL
    omega
  have hLwt : L ≤ wt.length := by
    unfold alignLimit at hL
    omega
  have hLC : L ≤ CPPS.length := by
    unfold alignLimit at hL
    omega
  have hlF : (F0.take L).length = L := by
    rw [List.length_take]
    omega
  have hlD : (dB.take L).length = L := by
    rw [List.length_take]
    omega
  have hlC : (CPPS.take L).length = L := by
    rw [List.length_take]
    omega
  have hA : alignTimeline ops dB F0 CPPS wt lo hi dcal dtar =
      ⟨wt.take L,
       List.zipWith (fun f d => if f = 0 ∨ d = 0 then 0 else d)
         (boundF0 lo hi (F0.take L))
         (gateSPL ((dB.take L).map (fun v => v - distShift ops dcal dtar))),
       List.zipWith (fun f d => if f = 0 ∨ d = 0 then 0 else f)
         (boundF0 lo hi (F0.take L))
         (gateSPL ((dB.take L).map (fun v => v - distShift ops dcal dtar))),
       List.zipWith (fun fd c => if fd.1 = (0:α) ∨ fd.2 = (0:α) then 0 else c)
         (((boundF0 lo hi (F0.take L)).zip
           (gateSPL ((dB.take L).map (fun v => v - distShift ops dcal dtar)))))
         (CPPS.take L)⟩ := rfl
  have hlF2 : (boundF0 lo hi (F0.take L)).length = L := by
    unfold boundF0
    rw [List.length_map, hlF]
  have hlD3 : (gateSPL ((dB.take L).map
      (fun v => v - distShift ops dcal dtar))).length = L := by
    unfold gateSPL
    rw [List.length_map, List.length_map, hlD]
  constructor
  · rw [hA]
    simp only [List.length_zipWith, hlF2, hlD3, min_self]
  · intro i hiL
    have hF2 : (boundF0 lo hi (F0.take L)).getD i 0 =
        (if (F0.take L).getD i 0 < lo ∨ (F0.take L).getD i 0 > hi then 0
         else (F0.take L).getD i 0) := by
      unfold boundF0
      exact getD_map_lt _ _ i 0 0 (by omega)
    have hD3 : (gateSPL ((dB.take L).map
        (fun v => v - distShift ops dcal dtar))).getD i 0 =
        (if (dB.take L).getD i 0 - distShift ops dcal dtar < 50 then 0
         else (dB.take L).getD i 0 - distShift ops dcal dtar) := by
      unfold gateSPL
      rw [getD_map_lt _ _ i 0 0 (by rw [List.length_map, hlD]; omega),
        getD_map_lt _ _ i 0 0 (by omega)]
    have hF0f : (alignTimeline ops dB F0 CPPS wt lo hi dcal dtar).F0.getD i 0 =
        (if (boundF0 lo hi (F0.take L)).getD i 0 = 0 ∨
            (gateSPL ((dB.take L).map
              (fun v => v - distShift ops dcal dtar))).getD i 0 = 0 then 0
         else (boundF0 lo hi (F0.take L)).getD i 0) := by
      rw [hA]
      exact getD_zipWith_lt _ _ _ i 0 (by omega) (by omega)
    have hdBf : (alignTimeline ops dB F0 CPPS wt lo hi dcal dtar).dB.getD i 0 =
        (if (boundF0 lo hi (F0.take L)).getD i 0 = 0 ∨
            (gateSPL ((dB.take L).map
              (fun v => v - distShift ops dcal dtar))).getD i 0 = 0 then 0
         else (gateSPL ((dB.take L).map
              (fun v => v - distShift ops dcal dtar))).getD i 0) := by
      rw [hA]
      exact getD_zipWith_lt _ _ _ i 0 (by omega) (by omega)
    have hCf : (alignTimeline ops dB F0 CPPS wt lo hi dcal dtar).CPPS.getD i 0 =
        (if (boundF0 lo hi (F0.take L)).getD i 0 = 0 ∨
            (gateSPL ((dB.take L).map
              (fun v => v - distShift ops dcal dtar))).getD i 0 = 0 then 0
         else (CPPS.take L).getD i 0) := by
      rw [hA]
      exact getD_zipWith_zip_lt _ _ _ _ i 0 0 (by omega) (by omega) (by omega)
    rw [hF0f, hdBf, hCf]
    unfold boundsFiredAt gateFiredAt maskAt
    rw [hF2, hD3]
    set f := (F0.take L).getD i 0 with hf
    set d := (dB.take L).getD i 0 with hd
    set sh := distShift ops dcal dtar with hsh
    by_cases hbounds : f < lo ∨ f > hi
    · rw [if_pos hbounds]
      simp only [hbounds, true_or, or_true, if_pos, eq_self_iff_true]
      refine ⟨by simp, fun _ => by simp, Or.inr (by simp)⟩
    · rw [if_neg hbounds]
      push_neg at hbounds
      have hfpos : 0 < f := lt_of_lt_of_le hlo hbounds.1
      by_cases hgate : d - sh < 50
      · rw [if_pos hgate]
        have hmask : f = 0 ∨ (0:α) = 0 := Or.inr rfl
        rw [if_pos hmask, if_pos hmask, if_pos hmask]
        refine ⟨?_, fun _ => ⟨rfl, rfl, rfl⟩, Or.inr ⟨rfl, rfl, rfl⟩⟩
        constructor
        · intro _
          exact Or.inr (Or.inl hgate)
        · intro _
          rfl
      · rw [if_neg hgate]
        push_neg at hgate
        have hdpos : (0:α) < d - sh := lt_of_lt_of_le (by norm_num) hgate
        have hmask : ¬(f = 0 ∨ d - sh = 0) := by
          push_neg
          exact ⟨ne_of_gt hfpos, ne_of_gt hdpos⟩
        rw [if_neg hmask, if_neg hmask, if_neg hmask]
        refine ⟨?_, ?_, Or.inl ⟨hfpos, hdpos⟩⟩
        · constructor
          · intro hf0
            exact absurd hf0 (ne_of_gt hfpos)
          · rintro (h | h | h)
            · exact absurd h (by push_neg; exact hbounds)
            · exact absurd h (by push_neg; exact hgate)
            · exact absurd h hmask
        · rintro (h | h | h)
          · exact absurd h (by push_neg; exact hbounds)
          · exact absurd h (by push_neg; exact hgate)
          · exact absurd h hmask

/-- C1 witness: a concrete aligned timeline with one valid index. -/
theorem C1_aligned_timeline_invariant_witness :
    (0 < (alignTimeline trivOps [(60:ℚ), 40] [100, 100] [5, 5] [0, 1]
        75 150 0.3 0.3).F0.getD 0 0 ∧
     0 < (alignTimeline trivOps [(60:ℚ), 40] [100, 100] [5, 5] [0, 1]
        75 150 0.3 0.3).dB.getD 0 0) ∨
    ((alignTimeline trivOps [(60:ℚ), 40] [100, 100] [5, 5] [0, 1]
        75 150 0.3 0.3).F0.getD 0 0 = 0 ∧
     (alignTimeline trivOps [(60:ℚ), 40] [100, 100] [5, 5] [0, 1]
        75 150 0.3 0.3).dB.getD 0 0 = 0 ∧
     (alignTimeline trivOps [(60:ℚ), 40] [100, 100] [5, 5] [0, 1]
        75 150 0.3 0.3).CPPS.getD 0 0 = 0) :=
  ((C1_aligned_timeline_invariant trivOps [(60:ℚ), 40] [100, 100] [5, 5]
      [0, 1] 75 150 0.3 0.3 (by norm_num)).2 0 (by decide)).2.2

/-- C7: when the computed mean energy of a frame is at or below 1e-20 the
level estimator returns exactly negative infinity, otherwise it returns
10*log10(meanEnergy) + C; in both cases every entry of the diagnostic
log-magnitude spectrum is finite, because exact-zero magnitudes are floored
at 1e-17 before the logarithm. -/
theorem C7_silence_sentinel {α : Type} [LinearOrderedField α] (ops : Ops α)
    (x : List α) (Fs : ℕ) (C : α)
    (hfa : ∀ v ∈ ops.fftAbs x, 0 ≤ v) :
    (stimaME ops x Fs ≤ 1e-20 → (stimaLivello ops x Fs C).2 = ⊥) ∧
    (¬ stimaME ops x Fs ≤ 1e-20 →
      (stimaLivello ops x Fs C).2 =
        ((10 * ops.log10 (stimaME ops x Fs) + C : α) : WithBot α)) ∧
    (∀ e ∈ (stimaLivello ops x Fs C).1, e ≠ ⊥) := by
  refine ⟨?_, ?_, ?_⟩
  · intro hME
    unfold stimaLivello
    rw [if_pos hME]
  · intro hME
    unfold stimaLivello
    rw [if_neg hME]
  · intro e he
    have hspec : (stimaLivello ops x Fs C).1 =
        (stimaMag ops x).map (dbLog ops 20) := by
      unfold stimaLivello
      by_cases hME : stimaME ops x Fs ≤ 1e-20
      · rw [if_pos hME]
      · rw [if_neg hME]
    rw [hspec] at he
    rcases List.mem_map.mp he with ⟨v, hv, hev⟩
    have hvpos : 0 < v := by
      unfold stimaMag at hv
      have hv1 := List.mem_of_mem_take hv
      rcases List.mem_map.mp hv1 with ⟨u, hu, huv⟩
      by_cases hu0 : u = 0
      · rw [← huv]
        simp only [hu0, if_pos]
        norm_num
      · rw [← huv]
        simp only [hu0, if_false]
        exact lt_of_le_of_ne (hfa u hu) (Ne.symm hu0)
    rw [← hev]
    unfold dbLog
    rw [if_neg (not_le.mpr hvpos)]
    exact WithBot.coe_ne_bot

/-- C7 witness: an all-zero two-sample frame computes a tiny mean energy,
so its level is negative infinity while its spectrum entries are finite. -/
theorem C7_silence_sentinel_witness :
    (stimaLivello trivOps [(0:ℚ), 0] 20 7).2 = ⊥ ∧
    ∀ e ∈ (stimaLivello trivOps [(0:ℚ), 0] 20 7).1, e ≠ ⊥ := by
  have hfa : ∀ v ∈ trivOps.fftAbs [(0:ℚ), 0], 0 ≤ v := by
    intro v hv
    simp only [trivOps, List.mem_cons, List.not_mem_nil, or_false] at hv
    rcases hv with rfl | rfl <;> norm_num
  have hME : stimaME trivOps [(0:ℚ), 0] 20 ≤ 1e-20 := by
    norm_num [stimaME, trivOps]
  exact ⟨(C7_silence_sentinel trivOps [(0:ℚ), 0] 20 7 hfa).1 hME,
    (C7_silence_sentinel trivOps [(0:ℚ), 0] 20 7 hfa).2.2⟩

/-- C6: with a calibration file and reference level supplied, the
calibration constant is exactly 50 + R - L0 with L0 the SPL_fast mean of
the calibration signal at C = 50 under power-of-two framing, and
is_calibrated is true; any read or processing error, a missing file or a
missing reference level instead yields the uncalibrated constant 50 with
is_calibrated false, never an error. -/
theorem C6_calibration_fallback {α : Type} [LinearOrderedField α]
    (ops : Ops α) (x : List α) (Fs : ℕ) (r : α) :
    (∀ l0 : α, SPL_fast ops x Fs = .ok ((l0 : α) : WithBot α) →
      calibStep ops (some (.ok (x, Fs))) (some r) =
        (((50 + r - l0 : α) : WithTop α), true)) ∧
    (∀ e, SPL_fast ops x Fs = .error e →
      calibStep ops (some (.ok (x, Fs))) (some r) = (((50:α) : WithTop α), false)) ∧
    (∀ e, calibStep ops (some (.error e)) (some r) = (((50:α) : WithTop α), false)) ∧
    (calibStep ops none (some r) = (((50:α) : WithTop α), false)) ∧
    (∀ cr, calibStep ops cr none = (((50:α) : WithTop α), false)) := by
  have hred : calibStep ops (some (.ok (x, Fs))) (some r) =
      (match SPL_fast ops x Fs with
       | Except.error _ => (((50:α) : WithTop α), false)
       | Except.ok none => (⊤, true)
       | Except.ok (some v) => (((50 + r - v : α) : WithTop α), true)) := rfl
  refine ⟨?_, ?_, ?_, rfl, ?_⟩
  · intro l0 hok
    rw [hred, hok]
  · intro e herr
    rw [hred, herr]
  · intro e
    rfl
  · intro cr
    cases cr with
    | none => rfl
    | some res =>
      cases res with
      | error e => rfl
      | ok p => rfl

/-- C6 witness: a concrete readable two-sample calibration signal with
reference level 60 yields the constant 50 + 60 - L0 with L0 = 100 and
is_calibrated true. -/
theorem C6_calibration_fallback_witness :
    calibStep trivOps (some (.ok ([(1:ℚ), 1], 20))) (some 60) =
      (((10 : ℚ) : WithTop ℚ), true) := by
  have hL : SPL_fast trivOps [(1:ℚ), 1] 20 = .ok ((100 : ℚ) : WithBot ℚ) := by
    have hN : splFastN 20 = 1 := by norm_num [splFastN, Nat.clog]
    unfold SPL_fast
    rw [hN]
    norm_num [splFastStarts, midOffset, stimaLivello, stimaME, trivOps,
      List.range_succ, WithBot.map, Option.map]
    simp only [WithBot.some_eq_coe]
    have hadd : ((5/2 : ℚ) : WithBot ℚ) + ((5/2 : ℚ) : WithBot ℚ) =
        ((5 : ℚ) : WithBot ℚ) := by
      rw [← WithBot.coe_add]
      norm_num
    rw [hadd]
    show ((5 / (1/20) : ℚ) : WithBot ℚ) = ((100:ℚ) : WithBot ℚ)
    norm_num
  have hres := (C6_calibration_fallback trivOps [(1:ℚ), 1] 20 60).1 100 hL
  rw [hres, show (50 + 60 - 100 : ℚ) = 10 by norm_num]

lemma le_of_mul_self_le {α : Type} [LinearOrderedField α] {a b : α}
    (ha : 0 ≤ a) (hb : 0 ≤ b) (h : a * a ≤ b * b) : a ≤ b := by
  nlinarith

lemma max_scale_low {α : Type} [LinearOrderedField α] {c x e : α}
    (hc0 : 0 < c) (hc1 : c ≤ 1) (he : 0 ≤ e) :
    c * max x e ≤ max (c * x) e := by
  rcases max_cases x e with ⟨h1, _⟩ | ⟨h1, _⟩ <;> rw [h1]
  · exact le_max_of_le_left (le_refl _)
  · calc c * e ≤ 1 * e := by nlinarith
    _ = e := one_mul e
    _ ≤ max (c * x) e := le_max_right _ _

lemma max_scale_high {α : Type} [LinearOrderedField α] {c x e : α}
    (hc1 : 1 ≤ c) (he : 0 ≤ e) :
    max (c * x) e ≤ c * max x e := by
  apply max_le
  · exact mul_le_mul_of_nonneg_left (le_max_left _ _) (by linarith)
  · calc e = 1 * e := (one_mul e).symm
    _ ≤ c * e := by nlinarith
    _ ≤ c * max x e :=
        mul_le_mul_of_nonneg_left (le_max_right _ _) (by linarith)

lemma frameMale_fields {α : Type} [LinearOrderedField α] (ops : Ops α)
    (ts f0 spl : α) :
    frameMale ops ts f0 spl =
      ⟨0.14 + 0.06 * (f0 / 120) ^ 2,
       0.14 + 0.06 * (f0 / 120) ^ 2 + ops.pow10 ((spl - 72.48) / 27.3),
       ts * 0.016 * ops.sqrt (max
         (((0.14 + 0.06 * (f0 / 120) ^ 2 + ops.pow10 ((spl - 72.48) / 27.3)) -
           (0.14 + 0.06 * (f0 / 120) ^ 2)) /
          max (0.14 + 0.06 * (f0 / 120) ^ 2) 1e-12) 0),
       0.0158 / (1 + 2.15 * ops.sqrt (f0 / 120)),
       5.4 / max f0 1e-12⟩ := rfl

lemma frameFemale_fields {α : Type} [LinearOrderedField α] (ops : Ops α)
    (ts f0 spl : α) :
    frameFemale ops ts f0 spl =
      ⟨0.14 + 0.06 * (f0 / 190) ^ 2,
       0.14 + 0.06 * (f0 / 190) ^ 2 + ops.pow10 ((spl - 72.48) / 27.3),
       ts * 0.010 * ops.sqrt (max
         (((0.14 + 0.06 * (f0 / 190) ^ 2 + ops.pow10 ((spl - 72.48) / 27.3)) -
           (0.14 + 0.06 * (f0 / 190) ^ 2)) /
          max (0.14 + 0.06 * (f0 / 190) ^ 2) 1e-12) 0),
       0.01063 / (1 + 1.69 * ops.sqrt (f0 / 190)),
       1.4 / max f0 1e-12⟩ := rfl

lemma partialsAt_de_voiced {α : Type} [LinearOrderedField α] (ops : Ops α)
    (m : GenderMode) (ts spl f0 : α) (h : 0 < f0 ∧ 0 < spl) :
    (partialsAt ops m ts spl f0).de =
      (frameQ ops m ts f0 spl).eta *
        ((frameQ ops m ts f0 spl).A / max (frameQ ops m ts f0 spl).T 1e-12) ^ 2 *
        (2 * ops.pi * f0) ^ 2 * ts / 1000 := by
  unfold partialsAt
  rw [if_pos h]

lemma frameQ_other_eta {α : Type} [LinearOrderedField α] (ops : Ops α)
    (ts f0 spl : α) :
    (frameQ ops .other ts f0 spl).eta =
      0.5 * ((frameMale ops ts f0 spl).eta + (frameFemale ops ts f0 spl).eta) :=
  rfl

lemma frameQ_other_A {α : Type} [LinearOrderedField α] (ops : Ops α)
    (ts f0 spl : α) :
    (frameQ ops .other ts f0 spl).A =
      0.5 * ((frameMale ops ts f0 spl).A + (frameFemale ops ts f0 spl).A) :=
  rfl

lemma frameQ_other_T {α : Type} [LinearOrderedField α] (ops : Ops α)
    (ts f0 spl : α) :
    (frameQ ops .other ts f0 spl).T =
      0.5 * ((frameMale ops ts f0 spl).T + (frameFemale ops ts f0 spl).T) :=
  rfl

set_option maxHeartbeats 1600000 in
lemma de_frame_between {α : Type} [LinearOrderedField α] (ops : Ops α)
    (hsq : ∀ y : α, 0 ≤ y → ops.sqrt y * ops.sqrt y = y)
    (hsqnn : ∀ y : α, 0 ≤ y → 0 ≤ ops.sqrt y)
    (hp10 : ∀ y : α, 0 < ops.pow10 y)
    (ts spl f0 : α) (hts : 0 < ts) :
    (partialsAt ops .female ts spl f0).de ≤
      (partialsAt ops .other ts spl f0).de ∧
    (partialsAt ops .other ts spl f0).de ≤
      (partialsAt ops .male ts spl f0).de := by
  by_cases hkv : 0 < f0 ∧ 0 < spl
  case neg =>
    rw [partialsAt_not_voiced ops .female ts spl f0 hkv,
      partialsAt_not_voiced ops .other ts spl f0 hkv,
      partialsAt_not_voiced ops .male ts spl f0 hkv]
    exact ⟨le_refl _, le_refl _⟩
  case pos =>
    obtain ⟨hf0, hspl⟩ := hkv
    rw [partialsAt_de_voiced ops .female ts spl f0 ⟨hf0, hspl⟩,
      partialsAt_de_voiced ops .other ts spl f0 ⟨hf0, hspl⟩,
      partialsAt_de_voiced ops .male ts spl f0 ⟨hf0, hspl⟩,
      frameQ_other_eta, frameQ_other_A, frameQ_other_T,
      show frameQ ops .male ts f0 spl = frameMale ops ts f0 spl from rfl,
      show frameQ ops .female ts f0 spl = frameFemale ops ts f0 spl from rfl,
      frameMale_fields, frameFemale_fields]
    dsimp only
    set S := ops.pow10 ((spl - 72.48) / 27.3) with hSdef
    have hS : 0 < S := hp10 _
    set Pm : α := 0.14 + 0.06 * (f0 / 120) ^ 2 with hPmdef
    set Pf : α := 0.14 + 0.06 * (f0 / 190) ^ 2 with hPfdef
    clear_value S
    have hPm : (0:α) < Pm := by
      rw [hPmdef]
      positivity
    have hPf : (0:α) < Pf := by
      rw [hPfdef]
      positivity
    have hPm14 : (1e-12:α) ≤ Pm := by
      rw [hPmdef]
      nlinarith [sq_nonneg (f0 / 120)]
    have hPf14 : (1e-12:α) ≤ Pf := by
      rw [hPfdef]
      nlinarith [sq_nonneg (f0 / 190)]
    have hPfle : Pf ≤ Pm := by
      rw [hPmdef, hPfdef]
      nlinarith [sq_nonneg f0]
    have hPmle : Pm ≤ (361/144) * Pf := by
      rw [hPmdef, hPfdef]
      nlinarith [sq_nonneg f0]
    have hargm : max ((Pm + S - Pm) / max Pm 1e-12) 0 = S / Pm := by
      rw [max_eq_left hPm14, show Pm + S - Pm = S by ring]
      exact max_eq_left (le_of_lt (div_pos hS hPm))
    have hargf : max ((Pf + S - Pf) / max Pf 1e-12) 0 = S / Pf := by
      rw [max_eq_left hPf14, show Pf + S - Pf = S by ring]
      exact max_eq_left (le_of_lt (div_pos hS hPf))
    rw [hargm, hargf]
    clear hargm hargf
    set qm := ops.sqrt (S / Pm) with hqmdef
    set qf := ops.sqrt (S / Pf) with hqfdef
    have hqm2 : qm * qm = S / Pm := hsq _ (le_of_lt (div_pos hS hPm))
    have hqf2 : qf * qf = S / Pf := hsq _ (le_of_lt (div_pos hS hPf))
    have hqmnn : 0 ≤ qm := hsqnn _ (le_of_lt (div_pos hS hPm))
    have hqfnn : 0 ≤ qf := hsqnn _ (le_of_lt (div_pos hS hPf))
    clear_value qm qf
    have hqmpos : 0 < qm := by
      rcases eq_or_lt_of_le hqmnn with h | h
      · exfalso
        have := div_pos hS hPm
        rw [← h] at hqm2
        nlinarith
      · exact h
    have hqfpos : 0 < qf := by
      rcases eq_or_lt_of_le hqfnn with h | h
      · exfalso
        have := div_pos hS hPf
        rw [← h] at hqf2
        nlinarith
      · exact h
    have hqmqf : qm ≤ qf := by
      apply le_of_mul_self_le hqmnn hqfnn
      rw [hqm2, hqf2]
      exact div_le_div_of_nonneg_left (le_of_lt hS) hPf hPfle
    have hqfle : qf ≤ (19/12) * qm := by
      apply le_of_mul_self_le hqfnn (by positivity)
      rw [hqf2, show ((19:α)/12) * qm * ((19/12) * qm) = (361/144) * (qm * qm) by
        ring, hqm2]
      rw [div_le_iff₀ hPf, ← mul_div_assoc, div_mul_eq_mul_div,
        le_div_iff₀ hPm]
      nlinarith [mul_le_mul_of_nonneg_left hPmle hS.le]
    set u := ops.sqrt (f0 / 120) with hudef
    set v := ops.sqrt (f0 / 190) with hvdef
    have hu2 : u * u = f0 / 120 := hsq _ (by positivity)
    have hv2 : v * v = f0 / 190 := hsq _ (by positivity)
    have hunn : 0 ≤ u := hsqnn _ (by positivity)
    have hvnn : 0 ≤ v := hsqnn _ (by positivity)
    clear_value u v
    have huv1 : (5/4) * v ≤ u := by
      apply le_of_mul_self_le (by positivity) hunn
      rw [show ((5:α)/4) * v * ((5/4) * v) = (25/16) * (v * v) by ring, hv2, hu2]
      nlinarith [hf0]
    have huv2 : u ≤ (63/50) * v := by
      apply le_of_mul_self_le hunn (by positivity)
      rw [show ((63:α)/50) * v * ((63/50) * v) = (3969/2500) * (v * v) by ring,
        hv2, hu2]
      nlinarith [hf0]
    set Tm := (0.0158 : α) / (1 + 2.15 * u) with hTmdef
    set Tf := (0.01063 : α) / (1 + 1.69 * v) with hTfdef
    have hdm : (0:α) < 1 + 2.15 * u := by nlinarith [hunn]
    have hdf : (0:α) < 1 + 1.69 * v := by nlinarith [hvnn]
    have hTmpos : 0 < Tm := div_pos (by norm_num) hdm
    have hTfpos : 0 < Tf := div_pos (by norm_num) hdf
    clear_value Pm Pf
    have hTfTm_low : (1063/1580) * Tm ≤ Tf := by
      rw [hTmdef, hTfdef, ← mul_div_assoc,
        show ((1063:α)/1580) * 0.0158 = 0.01063 by norm_num]
      apply div_le_div_of_nonneg_left (by norm_num) hdf
      linarith only [huv1, hvnn]
    have hTmTf : Tm ≤ (1580/1063) * Tf := by linarith only [hTfTm_low]
    have hTfTm_high : Tf ≤ ((1063/1580) * (2709/1690)) * Tm := by
      rw [hTmdef, hTfdef, ← mul_div_assoc,
        show ((1063:α)/1580) * ((2709:α)/1690) * 0.0158 =
          0.01063 * (2709/1690) by norm_num]
      rw [div_le_div_iff hdf hdm]
      linarith only [huv2, hvnn, hunn]
    clear_value Tm Tf
    set Tm' := max Tm (1e-12 : α) with hTm'def
    set Tf' := max Tf (1e-12 : α) with hTf'def
    set To' := max (0.5 * (Tm + Tf)) (1e-12 : α) with hTo'def
    have hTm'pos : (0:α) < Tm' := lt_of_lt_of_le (by norm_num) (le_max_right _ _)
    have hTf'pos : (0:α) < Tf' := lt_of_lt_of_le (by norm_num) (le_max_right _ _)
    have hTo'pos : (0:α) < To' := lt_of_lt_of_le (by norm_num) (le_max_right _ _)
    have hToLow : (2643/3160) * Tm' ≤ To' := by
      calc (2643/3160) * Tm' ≤ max ((2643/3160) * Tm) 1e-12 :=
        max_scale_low (by norm_num) (by norm_num) (by norm_num)
      _ ≤ To' := max_le_max (by linarith only [hTfTm_low]) (le_refl _)
    have hToHigh : To' ≤ (2643/2126) * Tf' := by
      calc To' ≤ max ((2643/2126) * Tf) 1e-12 :=
        max_le_max (by linarith only [hTmTf]) (le_refl _)
      _ ≤ (2643/2126) * Tf' := max_scale_high (by norm_num) (by norm_num)
    clear_value Tm' Tf' To'
    set D := max f0 (1e-12 : α) with hDdef
    have hD : (0:α) < D := lt_of_lt_of_le hf0 (le_max_left _ _)
    clear_value D
    set Am := ts * 0.016 * qm with hAmdef
    set Af := ts * 0.010 * qf with hAfdef
    have hAmpos : 0 < Am := by
      rw [hAmdef]
      positivity
    have hAfpos : 0 < Af := by
      rw [hAfdef]
      positivity
    clear_value Am Af
    have hAf95 : Af ≤ (95/96) * Am := by
      rw [hAmdef, hAfdef]
      linarith only [mul_le_mul_of_nonneg_left hqfle hts.le]
    have hAfleAm : Af ≤ Am := by linarith only [hAf95, hAmpos]
    have hW : 0 ≤ (2 * ops.pi * f0) ^ 2 * ts / 1000 := by
      apply div_nonneg _ (by norm_num)
      exact mul_nonneg (sq_nonneg _) hts.le
    have hrw : ∀ e q : α,
        e * q ^ 2 * (2 * ops.pi * f0) ^ 2 * ts / 1000 =
          (e * q ^ 2) * ((2 * ops.pi * f0) ^ 2 * ts / 1000) := by
      intro e q
      ring
    rw [hrw, hrw, hrw]
    constructor
    · apply mul_le_mul_of_nonneg_right _ hW
      rw [div_pow, div_pow]
      have hL : (1.4 / D : α) * (Af ^ 2 / Tf' ^ 2) =
          (1.4 * Af ^ 2) / (D * Tf' ^ 2) := by
        rw [div_mul_div_comm]
      have hR : (0.5 * (5.4 / D + 1.4 / D) : α) * ((0.5 * (Am + Af)) ^ 2 / To' ^ 2) =
          (3.4 * (0.5 * (Am + Af)) ^ 2) / (D * To' ^ 2) := by
        field_simp
        ring
      rw [hL, hR, div_le_div_iff (by positivity) (by positivity)]
      have key2 : 1.4 * Af ^ 2 * To' ^ 2 ≤ 3.4 * (0.5 * (Am + Af)) ^ 2 * Tf' ^ 2 := by
        have hAfleAo : Af ≤ 0.5 * (Am + Af) := by linarith only [hAfleAm]
        have h1 : Af ^ 2 ≤ (0.5 * (Am + Af)) ^ 2 :=
          pow_le_pow_left hAfpos.le hAfleAo 2
        have h2 : To' ^ 2 ≤ ((2643/2126) * Tf') ^ 2 :=
          pow_le_pow_left hTo'pos.le hToHigh 2
        calc 1.4 * Af ^ 2 * To' ^ 2
            ≤ 1.4 * (0.5 * (Am + Af)) ^ 2 * To' ^ 2 :=
              mul_le_mul_of_nonneg_right
                (mul_le_mul_of_nonneg_left h1 (by norm_num)) (sq_nonneg To')
          _ ≤ 1.4 * (0.5 * (Am + Af)) ^ 2 * ((2643/2126) * Tf') ^ 2 :=
              mul_le_mul_of_nonneg_left h2 (by positivity)
          _ = (1.4 * (2643/2126) ^ 2) * ((0.5 * (Am + Af)) ^ 2 * Tf' ^ 2) := by
              ring
          _ ≤ 3.4 * ((0.5 * (Am + Af)) ^ 2 * Tf' ^ 2) := by
              apply mul_le_mul_of_nonneg_right (by norm_num)
              positivity
          _ = 3.4 * (0.5 * (Am + Af)) ^ 2 * Tf' ^ 2 := by ring
      linarith only [mul_le_mul_of_nonneg_left key2 hD.le]
    · apply mul_le_mul_of_nonneg_right _ hW
      rw [div_pow, div_pow]
      have hL : (0.5 * (5.4 / D + 1.4 / D) : α) * ((0.5 * (Am + Af)) ^ 2 / To' ^ 2) =
          (3.4 * (0.5 * (Am + Af)) ^ 2) / (D * To' ^ 2) := by
        field_simp
        ring
      have hR : (5.4 / D : α) * (Am ^ 2 / Tm' ^ 2) =
          (5.4 * Am ^ 2) / (D * Tm' ^ 2) := by
        rw [div_mul_div_comm]
      rw [hL, hR, div_le_div_iff (by positivity) (by positivity)]
      have key1 : 3.4 * (0.5 * (Am + Af)) ^ 2 * Tm' ^ 2 ≤ 5.4 * Am ^ 2 * To' ^ 2 := by
        have hAole : 0.5 * (Am + Af) ≤ (191/192) * Am := by
          linarith only [hAf95]
        have hAopos : 0 < 0.5 * (Am + Af) := by linarith only [hAmpos, hAfpos]
        have h1 : (0.5 * (Am + Af)) ^ 2 ≤ ((191/192) * Am) ^ 2 :=
          pow_le_pow_left hAopos.le hAole 2
        have h2 : ((2643/3160) * Tm') ^ 2 ≤ To' ^ 2 :=
          pow_le_pow_left (by positivity) hToLow 2
        calc 3.4 * (0.5 * (Am + Af)) ^ 2 * Tm' ^ 2
            ≤ 3.4 * ((191/192) * Am) ^ 2 * Tm' ^ 2 :=
              mul_le_mul_of_nonneg_right
                (mul_le_mul_of_nonneg_left h1 (by norm_num)) (sq_nonneg Tm')
          _ = (3.4 * (191/192) ^ 2) * (Am ^ 2 * Tm' ^ 2) := by ring
          _ ≤ (5.4 * (2643/3160) ^ 2) * (Am ^ 2 * Tm' ^ 2) := by
              apply mul_le_mul_of_nonneg_right (by norm_num)
              positivity
          _ = 5.4 * Am ^ 2 * ((2643/3160) * Tm') ^ 2 := by ring
          _ ≤ 5.4 * Am ^ 2 * To' ^ 2 :=
              mul_le_mul_of_nonneg_left h2 (by positivity)
      linarith only [mul_le_mul_of_nonneg_left key1 hD.le]

lemma partialsAt_dt_mode {α : Type} [LinearOrderedField α] (ops : Ops α)
    (m m' : GenderMode) (ts spl f0 : α) :
    (partialsAt ops m ts spl f0).dt = (partialsAt ops m' ts spl f0).dt := by
  unfold partialsAt
  by_cases h : 0 < f0 ∧ 0 < spl
  · rw [if_pos h, if_pos h]
  · rw [if_neg h, if_neg h]

lemma partialsAt_dr_mode {α : Type} [LinearOrderedField α] (ops : Ops α)
    (m m' : GenderMode) (ts spl f0 : α) :
    (partialsAt ops m ts spl f0).dr = (partialsAt ops m' ts spl f0).dr := by
  unfold partialsAt
  by_cases h : 0 < f0 ∧ 0 < spl
  · rw [if_pos h, if_pos h]
  · rw [if_neg h, if_neg h]

lemma partialsAt_dd_other {α : Type} [LinearOrderedField α] (ops : Ops α)
    (ts spl f0 : α) :
    (partialsAt ops .other ts spl f0).dd =
      0.5 * ((partialsAt ops .male ts spl f0).dd +
        (partialsAt ops .female ts spl f0).dd) := by
  unfold partialsAt
  by_cases h : 0 < f0 ∧ 0 < spl
  · rw [if_pos h, if_pos h, if_pos h]
    show f0 * (frameQ ops .other _ f0 spl).A =
      0.5 * (f0 * (frameQ ops .male _ f0 spl).A +
        f0 * (frameQ ops .female _ f0 spl).A)
    rw [frameQ_other_A,
      show frameQ ops .male _ f0 spl = frameMale ops _ f0 spl from rfl,
      show frameQ ops .female _ f0 spl = frameFemale ops _ f0 spl from rfl]
    ring
  · rw [if_neg h, if_neg h, if_neg h]
    show (0:α) = 0.5 * (0 + 0)
    norm_num

lemma sum_map_eq_of_forall {α β : Type} [LinearOrderedField α] (l : List β)
    (f g : β → α) (h : ∀ b ∈ l, f b = g b) :
    (l.map f).sum = (l.map g).sum := by
  induction l with
  | nil => rfl
  | cons a t ih =>
    simp only [List.map_cons, List.sum_cons]
    rw [h a (List.mem_cons_self a t), ih (fun b hb => h b (List.mem_cons_of_mem a hb))]

lemma sum_map_le_of_forall {α β : Type} [LinearOrderedField α] (l : List β)
    (f g : β → α) (h : ∀ b ∈ l, f b ≤ g b) :
    (l.map f).sum ≤ (l.map g).sum :=
  List.sum_le_sum (fun b hb => h b hb)

lemma sum_map_avg {α β : Type} [LinearOrderedField α] (l : List β)
    (f g k : β → α) (h : ∀ b ∈ l, k b = 0.5 * (f b + g b)) :
    (l.map k).sum = 0.5 * ((l.map f).sum + (l.map g).sum) := by
  induction l with
  | nil =>
    show (0:α) = 0.5 * (0 + 0)
    norm_num
  | cons a t ih =>
    simp only [List.map_cons, List.sum_cons]
    rw [h a (List.mem_cons_self a t), ih (fun b hb => h b (List.mem_cons_of_mem a hb))]
    ring

lemma doseCore_eq_totals {α : Type} [LinearOrderedField α] (ops : Ops α)
    (m : GenderMode) (data : List (List α)) :
    doseCore ops m data =
      doseTotals ops (colT data) data.length (dosiPartials ops m data) := rfl

lemma doseTotals_Dd {α : Type} [LinearOrderedField α] (ops : Ops α)
    (t : List α) (n : ℕ) (ps : List (Partials α)) :
    (doseTotals ops t n ps).Dd = 4 * (ps.map Partials.dd).sum := by
  unfold doseTotals
  dsimp only
  split <;> rfl

lemma doseTotals_De {α : Type} [LinearOrderedField α] (ops : Ops α)
    (t : List α) (n : ℕ) (ps : List (Partials α)) :
    (doseTotals ops t n ps).De = 0.5 * (ps.map Partials.de).sum := by
  unfold doseTotals
  dsimp only
  split <;> rfl

lemma doseTotals_Dr {α : Type} [LinearOrderedField α] (ops : Ops α)
    (t : List α) (n : ℕ) (ps : List (Partials α)) :
    (doseTotals ops t n ps).Dr = 4 * ops.pi * (ps.map Partials.dr).sum := by
  unfold doseTotals
  dsimp only
  split <;> rfl

lemma doseTotals_Dt {α : Type} [LinearOrderedField α] (ops : Ops α)
    (t : List α) (n : ℕ) (ps : List (Partials α)) :
    (doseTotals ops t n ps).Dt = (ps.map Partials.dt).sum := by
  unfold doseTotals
  dsimp only
  split <;> rfl

lemma doseTotals_DdNorm {α : Type} [LinearOrderedField α] (ops : Ops α)
    (t : List α) (n : ℕ) (ps : List (Partials α)) :
    (doseTotals ops t n ps).DdNorm =
      if 0 < (ps.map Partials.dt).sum then
        (4 * (ps.map Partials.dd).sum) / (ps.map Partials.dt).sum
      else 0 := by
  unfold doseTotals
  dsimp only
  split <;> rfl

lemma doseTotals_DeNorm {α : Type} [LinearOrderedField α] (ops : Ops α)
    (t : List α) (n : ℕ) (ps : List (Partials α)) :
    (doseTotals ops t n ps).DeNorm =
      if 0 < (ps.map Partials.dt).sum then
        (0.5 * (ps.map Partials.de).sum) / (ps.map Partials.dt).sum
      else 0 := by
  unfold doseTotals
  dsimp only
  split <;> rfl

lemma doseTotals_DrNorm {α : Type} [LinearOrderedField α] (ops : Ops α)
    (t : List α) (n : ℕ) (ps : List (Partials α)) :
    (doseTotals ops t n ps).DrNorm =
      if 0 < (ps.map Partials.dt).sum then
        (4 * ops.pi * (ps.map Partials.dr).sum) / (ps.map Partials.dt).sum
      else 0 := by
  unfold doseTotals
  dsimp only
  split <;> rfl

lemma between_avg {α : Type} [LinearOrderedField α] (a b : α) :
    between a b (0.5 * (a + b)) := by
  unfold between
  rcases le_total a b with h | h
  · rw [min_eq_left h, max_eq_right h]
    constructor <;> linarith
  · rw [min_eq_right h, max_eq_left h]
    constructor <;> linarith

lemma between_of_le {α : Type} [LinearOrderedField α] {a b c : α}
    (h1 : b ≤ c) (h2 : c ≤ a) : between a b c := by
  unfold between
  exact ⟨le_trans (min_le_right a b) h1, le_trans h2 (le_max_left a b)⟩

lemma between_self {α : Type} [LinearOrderedField α] (a : α) :
    between a a a := by
  unfold between
  rw [min_self, max_self]
  exact ⟨le_refl a, le_refl a⟩

lemma between_div {α : Type} [LinearOrderedField α] {a b c d : α}
    (h : between a b c) (hd : 0 < d) : between (a/d) (b/d) (c/d) := by
  obtain ⟨h1, h2⟩ := h
  have hmin : min (a/d) (b/d) = min a b / d := by
    rcases le_total a b with hab | hab
    · rw [min_eq_left hab, min_eq_left ((div_le_div_right hd).mpr hab)]
    · rw [min_eq_right hab, min_eq_right ((div_le_div_right hd).mpr hab)]
  have hmax : max (a/d) (b/d) = max a b / d := by
    rcases le_total a b with hab | hab
    · rw [max_eq_right hab, max_eq_right ((div_le_div_right hd).mpr hab)]
    · rw [max_eq_left hab, max_eq_left ((div_le_div_right hd).mpr hab)]
  unfold between
  rw [hmin, hmax]
  exact ⟨(div_le_div_right hd).mpr h1, (div_le_div_right hd).mpr h2⟩

/-- C4: for a fixed valid input, each of the dose totals Dd, De, Dr and the
rate-normalized forms computed under the other gender profile, which
averages the five per-frame intermediates of the male and female parameter
sets, lies between the male-computed and female-computed values,
inclusive. -/
theorem C4_other_between_doses {α : Type} [LinearOrderedField α]
    (ops : Ops α)
    (hsq : ∀ y : α, 0 ≤ y → ops.sqrt y * ops.sqrt y = y)
    (hsqnn : ∀ y : α, 0 ≤ y → 0 ≤ ops.sqrt y)
    (hp10 : ∀ y : α, 0 < ops.pow10 y)
    (data : List (List α)) :
    between (doseCore ops .male data).Dd (doseCore ops .female data).Dd
      (doseCore ops .other data).Dd ∧
    between (doseCore ops .male data).De (doseCore ops .female data).De
      (doseCore ops .other data).De ∧
    between (doseCore ops .male data).Dr (doseCore ops .female data).Dr
      (doseCore ops .other data).Dr ∧
    between (doseCore ops .male data).DdNorm (doseCore ops .female data).DdNorm
      (doseCore ops .other data).DdNorm ∧
    between (doseCore ops .male data).DeNorm (doseCore ops .female data).DeNorm
      (doseCore ops .other data).DeNorm ∧
    between (doseCore ops .male data).DrNorm (doseCore ops .female data).DrNorm
      (doseCore ops .other data).DrNorm := by
  have hts : 0 < inferTimeStep (colT data) := inferTimeStep_pos _
  have hdd_avg : ((dosiPartials ops .other data).map Partials.dd).sum =
      0.5 * (((dosiPartials ops .male data).map Partials.dd).sum +
        ((dosiPartials ops .female data).map Partials.dd).sum) := by
    unfold dosiPartials
    rw [List.map_map, List.map_map, List.map_map]
    exact sum_map_avg data _ _ _ (fun r _ => partialsAt_dd_other ops _ _ _)
  have hde_f : ((dosiPartials ops .female data).map Partials.de).sum ≤
      ((dosiPartials ops .other data).map Partials.de).sum := by
    unfold dosiPartials
    rw [List.map_map, List.map_map]
    exact sum_map_le_of_forall data _ _
      (fun r _ => (de_frame_between ops hsq hsqnn hp10 _ _ _ hts).1)
  have hde_m : ((dosiPartials ops .other data).map Partials.de).sum ≤
      ((dosiPartials ops .male data).map Partials.de).sum := by
    unfold dosiPartials
    rw [List.map_map, List.map_map]
    exact sum_map_le_of_forall data _ _
      (fun r _ => (de_frame_between ops hsq hsqnn hp10 _ _ _ hts).2)
  have hdr_fm : ((dosiPartials ops .female data).map Partials.dr).sum =
      ((dosiPartials ops .male data).map Partials.dr).sum := by
    unfold dosiPartials
    rw [List.map_map, List.map_map]
    exact sum_map_eq_of_forall data _ _
      (fun r _ => partialsAt_dr_mode ops .female .male _ _ _)
  have hdr_om : ((dosiPartials ops .other data).map Partials.dr).sum =
      ((dosiPartials ops .male data).map Partials.dr).sum := by
    unfold dosiPartials
    rw [List.map_map, List.map_map]
    exact sum_map_eq_of_forall data _ _
      (fun r _ => partialsAt_dr_mode ops .other .male _ _ _)
  have hdt_fm : ((dosiPartials ops .female data).map Partials.dt).sum =
      ((dosiPartials ops .male data).map Partials.dt).sum := by
    unfold dosiPartials
    rw [List.map_map, List.map_map]
    exact sum_map_eq_of_forall data _ _
      (fun r _ => partialsAt_dt_mode ops .female .male _ _ _)
  have hdt_om : ((dosiPartials ops .other data).map Partials.dt).sum =
      ((dosiPartials ops .male data).map Partials.dt).sum := by
    unfold dosiPartials
    rw [List.map_map, List.map_map]
    exact sum_map_eq_of_forall data _ _
      (fun r _ => partialsAt_dt_mode ops .other .male _ _ _)
  have hDdB : between
      (4 * ((dosiPartials ops .male data).map Partials.dd).sum)
      (4 * ((dosiPartials ops .female data).map Partials.dd).sum)
      (4 * ((dosiPartials ops .other data).map Partials.dd).sum) := by
    rw [hdd_avg]
    generalize ((dosiPartials ops GenderMode.male data).map Partials.dd).sum = x
    generalize ((dosiPartials ops GenderMode.female data).map Partials.dd).sum = y
    rw [show (4:α) * (0.5 * (x + y)) = 0.5 * (4 * x + 4 * y) by ring]
    exact between_avg _ _
  have hDeB : between
      (0.5 * ((dosiPartials ops .male data).map Partials.de).sum)
      (0.5 * ((dosiPartials ops .female data).map Partials.de).sum)
      (0.5 * ((dosiPartials ops .other data).map Partials.de).sum) :=
    between_of_le (by linarith only [hde_f]) (by linarith only [hde_m])
  have hDrB : between
      (4 * ops.pi * ((dosiPartials ops .male data).map Partials.dr).sum)
      (4 * ops.pi * ((dosiPartials ops .female data).map Partials.dr).sum)
      (4 * ops.pi * ((dosiPartials ops .other data).map Partials.dr).sum) := by
    rw [hdr_fm, hdr_om]
    exact between_self _
  refine ⟨?_, ?_, ?_, ?_, ?_, ?_⟩
  · simp only [doseCore_eq_totals, doseTotals_Dd]
    exact hDdB
  · simp only [doseCore_eq_totals, doseTotals_De]
    exact hDeB
  · simp only [doseCore_eq_totals, doseTotals_Dr]
    exact hDrB
  · simp only [doseCore_eq_totals, doseTotals_DdNorm]
    rw [hdt_fm, hdt_om]
    by_cases h : 0 < ((dosiPartials ops GenderMode.male data).map Partials.dt).sum
    · rw [if_pos h, if_pos h, if_pos h]
      exact between_div hDdB h
    · rw [if_neg h, if_neg h, if_neg h]
      exact between_self 0
  · simp only [doseCore_eq_totals, doseTotals_DeNorm]
    rw [hdt_fm, hdt_om]
    by_cases h : 0 < ((dosiPartials ops GenderMode.male data).map Partials.dt).sum
    · rw [if_pos h, if_pos h, if_pos h]
      exact between_div hDeB h
    · rw [if_neg h, if_neg h, if_neg h]
      exact between_self 0
  · simp only [doseCore_eq_totals, doseTotals_DrNorm]
    rw [hdt_fm, hdt_om]
    by_cases h : 0 < ((dosiPartials ops GenderMode.male data).map Partials.dt).sum
    · rw [if_pos h, if_pos h, if_pos h]
      exact between_div hDrB h
    · rw [if_neg h, if_neg h, if_neg h]
      exact between_self 0

/-- C4 witness: the real-number primitives satisfy the square-root and
power-of-ten facts, so the betweenness holds at a concrete one-frame
timeline. -/
theorem C4_other_between_doses_witness :
    between
      (doseCore (⟨Real.sqrt, fun x => (10:ℝ) ^ x, Real.logb 10, Real.pi,
        fun l => l⟩ : Ops ℝ) .male [[0, 80, 220]]).Dd
      (doseCore (⟨Real.sqrt, fun x => (10:ℝ) ^ x, Real.logb 10, Real.pi,
        fun l => l⟩ : Ops ℝ) .female [[0, 80, 220]]).Dd
      (doseCore (⟨Real.sqrt, fun x => (10:ℝ) ^ x, Real.logb 10, Real.pi,
        fun l => l⟩ : Ops ℝ) .other [[0, 80, 220]]).Dd ∧
    between
      (doseCore (⟨Real.sqrt, fun x => (10:ℝ) ^ x, Real.logb 10, Real.pi,
        fun l => l⟩ : Ops ℝ) .male [[0, 80, 220]]).De
      (doseCore (⟨Real.sqrt, fun x => (10:ℝ) ^ x, Real.logb 10, Real.pi,
        fun l => l⟩ : Ops ℝ) .female [[0, 80, 220]]).De
      (doseCore (⟨Real.sqrt, fun x => (10:ℝ) ^ x, Real.logb 10, Real.pi,
        fun l => l⟩ : Ops ℝ) .other [[0, 80, 220]]).De :=
  ⟨(C4_other_between_doses _ (fun y hy => Real.mul_self_sqrt hy)
      (fun y _ => Real.sqrt_nonneg y)
      (fun y => Real.rpow_pos_of_pos (by norm_num) y) [[0, 80, 220]]).1,
   (C4_other_between_doses _ (fun y hy => Real.mul_self_sqrt hy)
      (fun y _ => Real.sqrt_nonneg y)
      (fun y => Real.rpow_pos_of_pos (by norm_num) y) [[0, 80, 220]]).2.1⟩
